import Mathlib

/-!
Verification of the ion-cdft Picard solvers (cdft/minimise.py): a shallow
embedding of the single-species solver, the two-species solver and the
long-range two-species solver over an IEEE-754-style value type, together
with the standalone charge-density utility and the relaxation-schedule
mechanism.
-/

/-- IEEE-754-style value as held by a numpy float64 array cell: NaN, plus or
minus infinity, or a finite value (idealised as a real number). -/
inductive FV where
  | nan : FV
  | pinf : FV
  | ninf : FV
  | fin : ℝ → FV

/-- Predicate of np.isfinite on one value. -/
def FV.isFinite : FV → Bool
  | .fin _ => true
  | _ => false

/-- Predicate of np.isnan on one value. -/
def FV.isNaN : FV → Bool
  | .nan => true
  | _ => false

/-- IEEE negation. -/
def FV.neg : FV → FV
  | .nan => .nan
  | .pinf => .ninf
  | .ninf => .pinf
  | .fin x => .fin (-x)

/-- IEEE addition: NaN propagates, opposite infinities give NaN. -/
def FV.add : FV → FV → FV
  | .nan, _ => .nan
  | _, .nan => .nan
  | .pinf, .ninf => .nan
  | .ninf, .pinf => .nan
  | .pinf, _ => .pinf
  | _, .pinf => .pinf
  | .ninf, _ => .ninf
  | _, .ninf => .ninf
  | .fin x, .fin y => .fin (x + y)

/-- IEEE subtraction. -/
def FV.sub (a b : FV) : FV := FV.add a (FV.neg b)

/-- IEEE multiplication: NaN propagates, zero times an infinity gives NaN. -/
noncomputable def FV.mul : FV → FV → FV
  | .nan, _ => .nan
  | _, .nan => .nan
  | .pinf, .pinf => .pinf
  | .pinf, .ninf => .ninf
  | .ninf, .pinf => .ninf
  | .ninf, .ninf => .pinf
  | .pinf, .fin y => if 0 < y then .pinf else if y < 0 then .ninf else .nan
  | .fin x, .pinf => if 0 < x then .pinf else if x < 0 then .ninf else .nan
  | .ninf, .fin y => if 0 < y then .ninf else if y < 0 then .pinf else .nan
  | .fin x, .ninf => if 0 < x then .ninf else if x < 0 then .pinf else .nan
  | .fin x, .fin y => .fin (x * y)

/-- IEEE division as used for the relative-error diagnostic: NaN propagates,
infinity over infinity and zero over zero give NaN. -/
noncomputable def FV.div : FV → FV → FV
  | .nan, _ => .nan
  | _, .nan => .nan
  | .pinf, .pinf => .nan
  | .pinf, .ninf => .nan
  | .ninf, .pinf => .nan
  | .ninf, .ninf => .nan
  | .pinf, .fin y => if 0 ≤ y then .pinf else .ninf
  | .ninf, .fin y => if 0 ≤ y then .ninf else .pinf
  | .fin _, .pinf => .fin 0
  | .fin _, .ninf => .fin 0
  | .fin x, .fin y =>
      if y = 0 then (if x = 0 then .nan else if 0 < x then .pinf else .ninf)
      else .fin (x / y)

/-- np.exp on one value: exp of minus infinity is exactly zero. -/
noncomputable def FV.exp : FV → FV
  | .nan => .nan
  | .pinf => .pinf
  | .ninf => .fin 0
  | .fin x => .fin (Real.exp x)

/-- np.abs on one value. -/
noncomputable def FV.abs : FV → FV
  | .nan => .nan
  | .pinf => .pinf
  | .ninf => .pinf
  | .fin x => .fin |x|

/-- np.log on a scalar: minus infinity at zero, NaN below zero. -/
noncomputable def FV.flog (x : ℝ) : FV :=
  if 0 < x then .fin (Real.log x) else if x = 0 then .ninf else .nan

/-- IEEE comparison, as Python and numpy use it in branches: any comparison
with NaN is false. -/
def FV.lt : FV → FV → Prop
  | .nan, _ => False
  | _, .nan => False
  | .pinf, _ => False
  | _, .pinf => True
  | .ninf, .ninf => False
  | .ninf, _ => True
  | _, .ninf => False
  | .fin x, .fin y => x < y

/-- Pairwise maximum of np.maximum, the reduction step of np.max over an
array: NaN propagates from either argument. -/
noncomputable def FV.max : FV → FV → FV
  | .nan, _ => .nan
  | _, .nan => .nan
  | .pinf, _ => .pinf
  | _, .pinf => .pinf
  | .ninf, b => b
  | a, .ninf => a
  | .fin x, .fin y => .fin (Max.max x y)

/-- np.max over the first n cells of an array: the NaN-propagating reduction
of FV.max (minus infinity is its neutral element on nonempty arrays). -/
noncomputable def vmax (n : ℕ) (v : ℕ → FV) : FV :=
  ((List.range n).map v).foldr FV.max FV.ninf

open Classical in
/-- Python's builtin max of two floats: returns the second argument exactly
when the first compares less than it, so a NaN in the second argument is
silently dropped while a NaN in the first is returned. -/
noncomputable def pymax (a b : FV) : FV := if FV.lt a b then b else a

/-- One Picard loop: the per-iteration body, how the carried state is read
off an iteration's output, the fatal test (NaN delta), the convergence test
and the returned value. All three solvers of minimise.py instantiate this
shape. -/
structure LoopSpec (St Out R : Type) where
  body : ℕ → St → Out
  next : Out → St
  bad : Out → Bool
  good : Out → Prop
  res : Out → R

open Classical in
/-- The solver loop, mirroring for i in range(maxiter + 1) driven by a fuel
argument: run the body, return the failure sentinel on a NaN delta, return
the result on convergence, otherwise continue; fuel exhausted is the
non-convergence sentinel. -/
noncomputable def LoopSpec.run {St Out R : Type} (L : LoopSpec St Out R) :
    ℕ → ℕ → St → Option R
  | 0, _, _ => none
  | fuel + 1, i, s =>
    if L.bad (L.body i s) then none
    else if L.good (L.body i s) then some (L.res (L.body i s))
    else L.run fuel (i + 1) (L.next (L.body i s))

/-- The pure iterate sequence of a loop: the state before iteration k. -/
def LoopSpec.states {St Out R : Type} (L : LoopSpec St Out R) (s0 : St) : ℕ → St
  | 0 => s0
  | k + 1 => L.next (L.body k (L.states s0 k))

/-- The output of iteration k of the pure iterate sequence. -/
def LoopSpec.outAt {St Out R : Type} (L : LoopSpec St Out R) (s0 : St) (k : ℕ) : Out :=
  L.body k (L.states s0 k)

/-- The relaxation coefficient the dictionary-keyed schedule mechanism holds
after the lookups of iterations 0..i have run: the coefficient is overwritten
exactly when the iteration index is a key of the table. -/
def alphaAt (u : ℕ → Option ℝ) (a0 : ℝ) : ℕ → ℝ
  | 0 => (u 0).getD a0
  | i + 1 => (u (i + 1)).getD (alphaAt u a0 i)

/-- Modelled from the spec: the coefficient associated with the largest
threshold key at most the current iteration index, or the initial coefficient
when no key has been reached. -/
def alphaSpecLookup (u : ℕ → Option ℝ) (a0 : ℝ) (i : ℕ) : ℝ :=
  (u (Nat.findGreatest (fun k => (u k).isSome = true) i)).getD a0

/-- np.trapz over the first n cells: the trapezoidal sum of field y against
grid x. -/
noncomputable def np_trapz (n : ℕ) (y x : ℕ → ℝ) : ℝ :=
  ∑ k ∈ Finset.range (n - 1), (x (k + 1) - x k) * (y k + y (k + 1)) / 2

/-- calculate_charge_density of minimise.py: the species charge density minus
the uniform background obtained from the trapezoidal particle count times the
charge over the domain length. -/
noncomputable def calculate_charge_density (n : ℕ) (rho_new : ℕ → ℝ) (charge L : ℝ)
    (zbins : ℕ → ℝ) : ℕ → ℝ :=
  fun j => rho_new j * charge - np_trapz n rho_new zbins * charge / L

/-- scipy.constants.elementary_charge (exact SI value). -/
def elementary_charge : ℝ := 1.602176634e-19

/-- scipy.constants.epsilon_0 (2018 CODATA value used by scipy). -/
def epsilon_0 : ℝ := 8.8541878128e-12

/-- scipy.constants.Boltzmann (exact SI value). -/
def boltzmann_constant : ℝ := 1.380649e-23

/-- mu_correction of minimise.py: the closed-form self-energy correction
scalar computed once per species before the long-range loop starts. -/
noncomputable def mu_correction (q kappa_inv temp : ℝ) : ℝ :=
  (elementary_charge ^ 2 / (4 * Real.pi * epsilon_0 * 1e-10)) *
    (-q ^ 2 / (kappa_inv * Real.pi ^ (0.5 : ℝ))) * (1 / (boltzmann_constant * temp))

/-- Configuration of minimise_SR_onetype: grid, local chemical potential,
the correlation evaluator (neural.c1_onetype with its model, window size and
format flag folded in, an external collaborator), and the solver parameters. -/
structure SR1Cfg where
  n : ℕ
  zbins : ℕ → ℝ
  muloc : ℕ → FV
  c1 : (ℕ → FV) → ℕ → FV
  initial_guess : ℝ
  maxiter : ℕ
  alpha_initial : ℝ
  alpha_updates : ℕ → Option ℝ
  tolerance : ℝ

/-- Mutable state of the single-species loop. -/
structure SR1State where
  alpha : ℝ
  log_rho : ℕ → FV
  rho : ℕ → FV

/-- Everything one iteration of the single-species body computes. -/
structure SR1Out where
  state : SR1State
  log_rho_new : ℕ → FV
  rho_new : ℕ → FV
  delta : FV
  relative_error : FV

/-- One iteration of minimise_SR_onetype (lines 130-156): schedule lookup,
correlation evaluation on the current density, target log-density (minus
infinity at invalid positions), exponentiation, log-space mixing, and the
delta and relative-error diagnostics. -/
noncomputable def SR1.body (cfg : SR1Cfg) (i : ℕ) (s : SR1State) : SR1Out :=
  let alpha := (cfg.alpha_updates i).getD s.alpha
  let c1_pred := cfg.c1 s.rho
  let log_rho_new : ℕ → FV := fun j =>
    if (cfg.muloc j).isFinite then FV.add (cfg.muloc j) (c1_pred j) else FV.ninf
  let rho_new : ℕ → FV := fun j => FV.exp (log_rho_new j)
  let log_rho : ℕ → FV := fun j =>
    FV.add (FV.mul (FV.fin (1 - alpha)) (s.log_rho j)) (FV.mul (FV.fin alpha) (log_rho_new j))
  let rho : ℕ → FV := fun j => FV.exp (log_rho j)
  let delta := vmax cfg.n (fun j => FV.abs (FV.sub (rho_new j) (rho j)))
  let relative_error := FV.div delta (vmax cfg.n rho)
  { state := { alpha := alpha, log_rho := log_rho, rho := rho },
    log_rho_new := log_rho_new, rho_new := rho_new,
    delta := delta, relative_error := relative_error }

/-- Initial state of minimise_SR_onetype (lines 110-121): uniform density at
the initial guess, log-density of the guess at valid positions and minus
infinity at invalid ones. -/
noncomputable def SR1.init (cfg : SR1Cfg) : SR1State :=
  { alpha := cfg.alpha_initial,
    log_rho := fun j =>
      if (cfg.muloc j).isFinite then FV.flog cfg.initial_guess else FV.ninf,
    rho := fun _ => FV.fin cfg.initial_guess }

/-- The single-species solver as a loop: NaN delta is fatal, convergence is
delta below tolerance or relative error below tolerance, and success returns
the grid with the current density. -/
noncomputable def SR1.loop (cfg : SR1Cfg) :
    LoopSpec SR1State SR1Out ((ℕ → ℝ) × (ℕ → FV)) :=
  { body := SR1.body cfg,
    next := fun o => o.state,
    bad := fun o => o.delta.isNaN,
    good := fun o => FV.lt o.delta (FV.fin cfg.tolerance) ∨
      FV.lt o.relative_error (FV.fin cfg.tolerance),
    res := fun o => (cfg.zbins, o.state.rho) }

/-- minimise_SR_onetype: run the loop for maxiter + 1 iterations from the
initial state; none is the (None, None) failure sentinel. -/
noncomputable def SR1.solve (cfg : SR1Cfg) : Option ((ℕ → ℝ) × (ℕ → FV)) :=
  (SR1.loop cfg).run (cfg.maxiter + 1) 0 (SR1.init cfg)

/-- The pure iterate sequence of the single-species solver. -/
noncomputable def SR1.statesFrom (cfg : SR1Cfg) : ℕ → SR1State :=
  (SR1.loop cfg).states (SR1.init cfg)

/-- The output of iteration k of the single-species solver. -/
noncomputable def SR1.outAt (cfg : SR1Cfg) (k : ℕ) : SR1Out :=
  (SR1.loop cfg).outAt (SR1.init cfg) k

/-- Configuration of minimise_SR_twotype: both species share one joint
correlation evaluator call (neural.c1_twotype folded into one function). -/
structure SR2Cfg where
  n : ℕ
  zbins : ℕ → ℝ
  muloc_H : ℕ → FV
  muloc_O : ℕ → FV
  c1 : (ℕ → FV) → (ℕ → FV) → (ℕ → FV) × (ℕ → FV)
  initial_guess : ℝ
  maxiter : ℕ
  alpha_initial : ℝ
  alpha_updates : ℕ → Option ℝ
  tolerance : ℝ

/-- Mutable state of the two-species loop. -/
structure SR2State where
  alpha : ℝ
  log_rho_H : ℕ → FV
  log_rho_O : ℕ → FV
  rho_H : ℕ → FV
  rho_O : ℕ → FV

/-- Everything one iteration of the two-species body computes. -/
structure SR2Out where
  state : SR2State
  rho_H_new : ℕ → FV
  rho_O_new : ℕ → FV
  delta : FV
  relative_error : FV

/-- One iteration of minimise_SR_twotype (lines 225-258): both species are
updated from one joint evaluator call, the joint delta is Python's builtin
max of the per-species deltas, and the relative error divides by the larger
of the two density maxima. -/
noncomputable def SR2.body (cfg : SR2Cfg) (i : ℕ) (s : SR2State) : SR2Out :=
  let alpha := (cfg.alpha_updates i).getD s.alpha
  let preds := cfg.c1 s.rho_H s.rho_O
  let log_rho_H_new : ℕ → FV := fun j =>
    if (cfg.muloc_H j).isFinite then FV.add (cfg.muloc_H j) (preds.1 j) else FV.ninf
  let log_rho_O_new : ℕ → FV := fun j =>
    if (cfg.muloc_O j).isFinite then FV.add (cfg.muloc_O j) (preds.2 j) else FV.ninf
  let rho_H_new : ℕ → FV := fun j => FV.exp (log_rho_H_new j)
  let rho_O_new : ℕ → FV := fun j => FV.exp (log_rho_O_new j)
  let log_rho_H : ℕ → FV := fun j =>
    FV.add (FV.mul (FV.fin (1 - alpha)) (s.log_rho_H j)) (FV.mul (FV.fin alpha) (log_rho_H_new j))
  let log_rho_O : ℕ → FV := fun j =>
    FV.add (FV.mul (FV.fin (1 - alpha)) (s.log_rho_O j)) (FV.mul (FV.fin alpha) (log_rho_O_new j))
  let rho_H : ℕ → FV := fun j => FV.exp (log_rho_H j)
  let rho_O : ℕ → FV := fun j => FV.exp (log_rho_O j)
  let delta_H := vmax cfg.n (fun j => FV.abs (FV.sub (rho_H_new j) (rho_H j)))
  let delta_O := vmax cfg.n (fun j => FV.abs (FV.sub (rho_O_new j) (rho_O j)))
  let delta := pymax delta_H delta_O
  let relative_error := FV.div delta (pymax (vmax cfg.n rho_O) (vmax cfg.n rho_H))
  { state := { alpha := alpha, log_rho_H := log_rho_H, log_rho_O := log_rho_O,
               rho_H := rho_H, rho_O := rho_O },
    rho_H_new := rho_H_new, rho_O_new := rho_O_new,
    delta := delta, relative_error := relative_error }

/-- Initial state of minimise_SR_twotype (lines 199-212). -/
noncomputable def SR2.init (cfg : SR2Cfg) : SR2State :=
  { alpha := cfg.alpha_initial,
    log_rho_H := fun j =>
      if (cfg.muloc_H j).isFinite then FV.flog cfg.initial_guess else FV.ninf,
    log_rho_O := fun j =>
      if (cfg.muloc_O j).isFinite then FV.flog cfg.initial_guess else FV.ninf,
    rho_H := fun _ => FV.fin cfg.initial_guess,
    rho_O := fun _ => FV.fin cfg.initial_guess }

/-- The two-species solver as a loop. -/
noncomputable def SR2.loop (cfg : SR2Cfg) :
    LoopSpec SR2State SR2Out ((ℕ → ℝ) × (ℕ → FV) × (ℕ → FV)) :=
  { body := SR2.body cfg,
    next := fun o => o.state,
    bad := fun o => o.delta.isNaN,
    good := fun o => FV.lt o.delta (FV.fin cfg.tolerance) ∨
      FV.lt o.relative_error (FV.fin cfg.tolerance),
    res := fun o => (cfg.zbins, o.state.rho_H, o.state.rho_O) }

/-- minimise_SR_twotype: none is the (None, None, None) failure sentinel. -/
noncomputable def SR2.solve (cfg : SR2Cfg) : Option ((ℕ → ℝ) × (ℕ → FV) × (ℕ → FV)) :=
  (SR2.loop cfg).run (cfg.maxiter + 1) 0 (SR2.init cfg)

/-- The pure iterate sequence of the two-species solver. -/
noncomputable def SR2.statesFrom (cfg : SR2Cfg) : ℕ → SR2State :=
  (SR2.loop cfg).states (SR2.init cfg)

/-- The output of iteration k of the two-species solver. -/
noncomputable def SR2.outAt (cfg : SR2Cfg) (k : ℕ) : SR2Out :=
  (SR2.loop cfg).outAt (SR2.init cfg) k

/-- The fixed secondary density threshold of the long-range solver's
two-phase damping switch (the literal 1e-2 on line 398 of minimise.py). -/
def LR.secondary_threshold : ℝ := 1e-2

/-- The default density tolerance of minimise_LR_twotype (its signature
default tolerance=1e-5). -/
def LR.tolerance_default : ℝ := 1e-5

/-- The hard-coded initial value of the potential relaxation coefficient
(alpha_restr = 0.01, line 345 of minimise.py). -/
def LR.alpha_restr_initial : ℝ := 0.01

/-- Configuration of minimise_LR_twotype. The spectral utilities are external
collaborators: restructure composes lmft.fourier_transform on the grid (with
the wavenumber grid built once before the loop) with
lmft.restructure_electrostatic_potential at the configured screening length,
and prefactor_restructure is lmft.calculate_prefactor(temp, dielectric). -/
structure LRCfg where
  n : ℕ
  zbins : ℕ → ℝ
  muloc_H : ℕ → FV
  muloc_O : ℕ → FV
  q_H : ℝ
  q_O : ℝ
  kappa_inv : ℝ
  temp : ℝ
  prefactor_restructure : ℝ
  restructure : (ℕ → FV) → ℕ → FV
  c1 : (ℕ → FV) → (ℕ → FV) → (ℕ → FV) × (ℕ → FV)
  initial_guess : ℝ
  maxiter : ℕ
  alpha_initial : ℝ
  alpha_updates : ℕ → Option ℝ
  alpha_restr_updates : ℕ → Option ℝ
  tolerance : ℝ
  tolerance_restr : ℝ

/-- The per-species self-energy correction scalars, computed once before the
long-range loop (lines 340-341). -/
noncomputable def LR.mu_H (cfg : LRCfg) : ℝ :=
  mu_correction |cfg.q_H| cfg.kappa_inv cfg.temp

/-- The oxygen-species self-energy correction scalar. -/
noncomputable def LR.mu_O (cfg : LRCfg) : ℝ :=
  mu_correction |cfg.q_O| cfg.kappa_inv cfg.temp

/-- The charge density the long-range loop feeds to the spectral transform
each iteration (line 386): the raw combination rho_O*q_O + rho_H*q_H of the
just-updated densities, with no background subtraction. -/
noncomputable def LR.fedCharge (rho_H rho_O : ℕ → FV) (q_H q_O : ℝ) : ℕ → FV :=
  fun j => FV.add (FV.mul (rho_O j) (FV.fin q_O)) (FV.mul (rho_H j) (FV.fin q_H))

/-- Mutable state of the long-range loop: both relaxation coefficients, the
log-densities and densities of both species, and the restructuring
potential. -/
structure LRState where
  alpha : ℝ
  alpha_restr : ℝ
  log_rho_H : ℕ → FV
  log_rho_O : ℕ → FV
  rho_H : ℕ → FV
  rho_O : ℕ → FV
  delta_phi : ℕ → FV

/-- Everything one iteration of the long-range body computes. -/
structure LROut where
  state : LRState
  rho_H_new : ℕ → FV
  rho_O_new : ℕ → FV
  delta : FV
  delta_restr : FV
  delta_phi_new : ℕ → FV

open Classical in
/-- One iteration of minimise_LR_twotype (lines 356-401): schedule lookups
for both coefficients, evaluator call, self-energy correction and potential
coupling of the correlation profiles, log-space density update, new target
potential from the raw charge density of the updated densities, the delta
and delta_restr diagnostics, and the two-phase potential update. -/
noncomputable def LR.body (cfg : LRCfg) (i : ℕ) (s : LRState) : LROut :=
  let alpha := (cfg.alpha_updates i).getD s.alpha
  let alpha_restr := (cfg.alpha_restr_updates i).getD s.alpha_restr
  let preds := cfg.c1 s.rho_H s.rho_O
  let c1_H_LR : ℕ → FV := fun j =>
    FV.add (FV.sub (preds.1 j) (FV.fin (LR.mu_H cfg))) (FV.mul (FV.fin cfg.q_H) (s.delta_phi j))
  let c1_O_LR : ℕ → FV := fun j =>
    FV.add (FV.sub (preds.2 j) (FV.fin (LR.mu_O cfg))) (FV.mul (FV.fin cfg.q_O) (s.delta_phi j))
  let log_rho_H_new : ℕ → FV := fun j =>
    if (cfg.muloc_H j).isFinite then FV.add (cfg.muloc_H j) (c1_H_LR j) else FV.ninf
  let log_rho_O_new : ℕ → FV := fun j =>
    if (cfg.muloc_O j).isFinite then FV.add (cfg.muloc_O j) (c1_O_LR j) else FV.ninf
  let rho_H_new : ℕ → FV := fun j => FV.exp (log_rho_H_new j)
  let rho_O_new : ℕ → FV := fun j => FV.exp (log_rho_O_new j)
  let log_rho_H : ℕ → FV := fun j =>
    FV.add (FV.mul (FV.fin (1 - alpha)) (s.log_rho_H j)) (FV.mul (FV.fin alpha) (log_rho_H_new j))
  let log_rho_O : ℕ → FV := fun j =>
    FV.add (FV.mul (FV.fin (1 - alpha)) (s.log_rho_O j)) (FV.mul (FV.fin alpha) (log_rho_O_new j))
  let rho_H : ℕ → FV := fun j => FV.exp (log_rho_H j)
  let rho_O : ℕ → FV := fun j => FV.exp (log_rho_O j)
  let charge_density := LR.fedCharge rho_H rho_O cfg.q_H cfg.q_O
  let delta_phi_new : ℕ → FV := fun j =>
    FV.mul (FV.neg (cfg.restructure charge_density j)) (FV.fin cfg.prefactor_restructure)
  let delta_H := vmax cfg.n (fun j => FV.abs (FV.sub (rho_H_new j) (rho_H j)))
  let delta_O := vmax cfg.n (fun j => FV.abs (FV.sub (rho_O_new j) (rho_O j)))
  let delta := pymax delta_H delta_O
  let delta_restr := vmax cfg.n (fun j => FV.abs (FV.sub (delta_phi_new j) (s.delta_phi j)))
  let delta_phi : ℕ → FV :=
    if FV.lt delta (FV.fin LR.secondary_threshold) ∧
        FV.lt (FV.fin cfg.tolerance_restr) delta_restr then
      fun j => FV.add (FV.mul (FV.fin (1 - alpha_restr)) (s.delta_phi j))
        (FV.mul (FV.fin alpha_restr) (delta_phi_new j))
    else delta_phi_new
  { state := { alpha := alpha, alpha_restr := alpha_restr,
               log_rho_H := log_rho_H, log_rho_O := log_rho_O,
               rho_H := rho_H, rho_O := rho_O, delta_phi := delta_phi },
    rho_H_new := rho_H_new, rho_O_new := rho_O_new,
    delta := delta, delta_restr := delta_restr, delta_phi_new := delta_phi_new }

/-- Initial state of minimise_LR_twotype (lines 318-345): like the
two-species solver, plus a zero restructuring potential and the hard-coded
initial potential relaxation coefficient. -/
noncomputable def LR.init (cfg : LRCfg) : LRState :=
  { alpha := cfg.alpha_initial,
    alpha_restr := LR.alpha_restr_initial,
    log_rho_H := fun j =>
      if (cfg.muloc_H j).isFinite then FV.flog cfg.initial_guess else FV.ninf,
    log_rho_O := fun j =>
      if (cfg.muloc_O j).isFinite then FV.flog cfg.initial_guess else FV.ninf,
    rho_H := fun _ => FV.fin cfg.initial_guess,
    rho_O := fun _ => FV.fin cfg.initial_guess,
    delta_phi := fun _ => FV.fin 0 }

/-- The long-range solver as a loop: convergence is the joint test of delta
below tolerance and delta_restr below tolerance_restr; the relative error
plays no role (it is commented out in the source). -/
noncomputable def LR.loop (cfg : LRCfg) :
    LoopSpec LRState LROut ((ℕ → ℝ) × (ℕ → FV) × (ℕ → FV)) :=
  { body := LR.body cfg,
    next := fun o => o.state,
    bad := fun o => o.delta.isNaN,
    good := fun o => FV.lt o.delta (FV.fin cfg.tolerance) ∧
      FV.lt o.delta_restr (FV.fin cfg.tolerance_restr),
    res := fun o => (cfg.zbins, o.state.rho_H, o.state.rho_O) }

/-- minimise_LR_twotype: none is the (None, None, None) failure sentinel. -/
noncomputable def LR.solve (cfg : LRCfg) : Option ((ℕ → ℝ) × (ℕ → FV) × (ℕ → FV)) :=
  (LR.loop cfg).run (cfg.maxiter + 1) 0 (LR.init cfg)

/-- The pure iterate sequence of the long-range solver. -/
noncomputable def LR.statesFrom (cfg : LRCfg) : ℕ → LRState :=
  (LR.loop cfg).states (LR.init cfg)

/-- The output of iteration k of the long-range solver. -/
noncomputable def LR.outAt (cfg : LRCfg) (k : ℕ) : LROut :=
  (LR.loop cfg).outAt (LR.init cfg) k

/-- The joint convergence test of the long-range solver at iteration k. -/
noncomputable def LR.convergedAt (cfg : LRCfg) (k : ℕ) : Prop :=
  FV.lt (LR.outAt cfg k).delta (FV.fin cfg.tolerance) ∧
    FV.lt (LR.outAt cfg k).delta_restr (FV.fin cfg.tolerance_restr)

/-- The density invariants at one grid cell: a finite non-negative value,
exactly zero where the validity mask is false, strictly positive where it is
true. -/
def densProps (valid : Bool) (v : FV) : Prop :=
  (∃ x, v = FV.fin x ∧ 0 ≤ x) ∧
  (valid = false → v = FV.fin 0) ∧
  (valid = true → ∃ x, v = FV.fin x ∧ 0 < x)

/-- Well-posedness of a single-species configuration: relaxation
coefficients in (0,1) as the data model requires, a positive initial guess,
and an evaluator that returns finite correlation values. -/
def SR1.Hyp (cfg : SR1Cfg) : Prop :=
  (0 < cfg.alpha_initial ∧ cfg.alpha_initial < 1) ∧
  (∀ i v, cfg.alpha_updates i = some v → 0 < v ∧ v < 1) ∧
  0 < cfg.initial_guess ∧
  (∀ rho j, (cfg.c1 rho j).isFinite = true)

/-- Well-posedness of a two-species configuration. -/
def SR2.Hyp (cfg : SR2Cfg) : Prop :=
  (0 < cfg.alpha_initial ∧ cfg.alpha_initial < 1) ∧
  (∀ i v, cfg.alpha_updates i = some v → 0 < v ∧ v < 1) ∧
  0 < cfg.initial_guess ∧
  (∀ rho_H rho_O j, ((cfg.c1 rho_H rho_O).1 j).isFinite = true ∧
    ((cfg.c1 rho_H rho_O).2 j).isFinite = true)

/-- Well-posedness of a long-range configuration: additionally the spectral
reconstruction returns finite values. -/
def LR.Hyp (cfg : LRCfg) : Prop :=
  (0 < cfg.alpha_initial ∧ cfg.alpha_initial < 1) ∧
  (∀ i v, cfg.alpha_updates i = some v → 0 < v ∧ v < 1) ∧
  0 < cfg.initial_guess ∧
  (∀ rho_H rho_O j, ((cfg.c1 rho_H rho_O).1 j).isFinite = true ∧
    ((cfg.c1 rho_H rho_O).2 j).isFinite = true) ∧
  (∀ charge j, (cfg.restructure charge j).isFinite = true)

/-- Preservation-of-validity invariant of the single-species loop state. -/
def SR1.Inv (cfg : SR1Cfg) (s : SR1State) : Prop :=
  (0 < s.alpha ∧ s.alpha < 1) ∧
  (∀ j, (cfg.muloc j).isFinite = true → ∃ x, s.log_rho j = FV.fin x) ∧
  (∀ j, (cfg.muloc j).isFinite = false → s.log_rho j = FV.ninf)

/-- Preservation-of-validity invariant of the two-species loop state. -/
def SR2.Inv (cfg : SR2Cfg) (s : SR2State) : Prop :=
  (0 < s.alpha ∧ s.alpha < 1) ∧
  (∀ j, (cfg.muloc_H j).isFinite = true → ∃ x, s.log_rho_H j = FV.fin x) ∧
  (∀ j, (cfg.muloc_H j).isFinite = false → s.log_rho_H j = FV.ninf) ∧
  (∀ j, (cfg.muloc_O j).isFinite = true → ∃ x, s.log_rho_O j = FV.fin x) ∧
  (∀ j, (cfg.muloc_O j).isFinite = false → s.log_rho_O j = FV.ninf)

/-- Preservation-of-validity invariant of the long-range loop state: the
restructuring potential additionally stays finite everywhere. -/
def LR.Inv (cfg : LRCfg) (s : LRState) : Prop :=
  (0 < s.alpha ∧ s.alpha < 1) ∧
  (∀ j, (cfg.muloc_H j).isFinite = true → ∃ x, s.log_rho_H j = FV.fin x) ∧
  (∀ j, (cfg.muloc_H j).isFinite = false → s.log_rho_H j = FV.ninf) ∧
  (∀ j, (cfg.muloc_O j).isFinite = true → ∃ x, s.log_rho_O j = FV.fin x) ∧
  (∀ j, (cfg.muloc_O j).isFinite = false → s.log_rho_O j = FV.ninf) ∧
  (∀ j, ∃ x, s.delta_phi j = FV.fin x)

/-- A concrete well-posed single-species configuration. -/
noncomputable def W1cfg : SR1Cfg :=
  { n := 1, zbins := fun _ => 0, muloc := fun _ => FV.fin 0,
    c1 := fun _ _ => FV.fin 0, initial_guess := 1, maxiter := 0,
    alpha_initial := 1 / 2, alpha_updates := fun _ => none, tolerance := 1 }

/-- A concrete well-posed two-species configuration. -/
noncomputable def W2cfg : SR2Cfg :=
  { n := 1, zbins := fun _ => 0, muloc_H := fun _ => FV.fin 0,
    muloc_O := fun _ => FV.fin 0,
    c1 := fun _ _ => (fun _ => FV.fin 0, fun _ => FV.fin 0),
    initial_guess := 1, maxiter := 0, alpha_initial := 1 / 2,
    alpha_updates := fun _ => none, tolerance := 1 }

/-- A concrete well-posed long-range configuration. -/
noncomputable def W3cfg : LRCfg :=
  { n := 1, zbins := fun _ => 0, muloc_H := fun _ => FV.fin 0,
    muloc_O := fun _ => FV.fin 0, q_H := 1, q_O := -1, kappa_inv := 1,
    temp := 1, prefactor_restructure := 1,
    restructure := fun _ _ => FV.fin 0,
    c1 := fun _ _ => (fun _ => FV.fin 0, fun _ => FV.fin 0),
    initial_guess := 1, maxiter := 0, alpha_initial := 1 / 2,
    alpha_updates := fun _ => none, alpha_restr_updates := fun _ => none,
    tolerance := 1, tolerance_restr := 1 }

/-- A single-species state with unit density at every cell, used to
instantiate the log-mixing identity at a concrete input. -/
noncomputable def C9state : SR1State :=
  { alpha := 1 / 2, log_rho := fun _ => FV.fin 0, rho := fun _ => FV.fin 1 }

/-- A two-species configuration on which the evaluator returns NaN for the
second species at a valid position while the first species is already
converged: Python max(delta_H, delta_O) then silently drops the NaN. -/
noncomputable def C8cfg : SR2Cfg :=
  { n := 1, zbins := fun _ => 0, muloc_H := fun _ => FV.fin 0,
    muloc_O := fun _ => FV.fin 0,
    c1 := fun _ _ => (fun _ => FV.fin 0, fun _ => FV.nan),
    initial_guess := 1, maxiter := 0, alpha_initial := 1 / 2,
    alpha_updates := fun _ => none, tolerance := 1 }

/-- The uniform unit grid of the charge-density counterexample. -/
noncomputable def C5z : ℕ → ℝ := fun k => (k : ℝ)

/-- The uniform unit density field of the charge-density counterexample. -/
def C5rho : ℕ → ℝ := fun _ => 1

theorem FV.isFinite_iff (v : FV) : v.isFinite = true ↔ ∃ x, v = FV.fin x := by
  cases v <;> simp [FV.isFinite]

theorem FV.add_fin_fin (x y : ℝ) : FV.add (.fin x) (.fin y) = .fin (x + y) := rfl

theorem FV.add_ninf_ninf : FV.add .ninf .ninf = .ninf := rfl

theorem FV.mul_fin_fin (x y : ℝ) : FV.mul (.fin x) (.fin y) = .fin (x * y) := rfl

theorem FV.mul_fin_ninf {x : ℝ} (h : 0 < x) : FV.mul (.fin x) .ninf = .ninf := by
  simp [FV.mul, h]

theorem FV.sub_fin_fin (x y : ℝ) : FV.sub (.fin x) (.fin y) = .fin (x - y) := by
  simp [FV.sub, FV.neg, FV.add, sub_eq_add_neg]

theorem FV.exp_fin (x : ℝ) : FV.exp (.fin x) = .fin (Real.exp x) := rfl

theorem FV.exp_ninf : FV.exp .ninf = .fin 0 := rfl

theorem FV.abs_fin (x : ℝ) : FV.abs (.fin x) = .fin |x| := rfl

theorem FV.lt_fin_fin {x y : ℝ} : FV.lt (.fin x) (.fin y) ↔ x < y := Iff.rfl

theorem FV.not_lt_nan (a : FV) : ¬ FV.lt a .nan := by
  cases a <;> simp [FV.lt]

theorem FV.isNaN_false_of_lt {a b : FV} (h : FV.lt a b) : a.isNaN = false := by
  cases a <;> cases b <;> simp_all [FV.lt, FV.isNaN]

theorem FV.isNaN_fin (x : ℝ) : (FV.fin x).isNaN = false := rfl

theorem FV.flog_of_pos {x : ℝ} (h : 0 < x) : FV.flog x = .fin (Real.log x) := by
  simp [FV.flog, h]

theorem FV.max_fin_ninf (x : ℝ) : FV.max (.fin x) .ninf = .fin x := rfl

theorem vmax_one (v : ℕ → FV) : vmax 1 v = FV.max (v 0) FV.ninf := rfl

theorem pymax_of_not_lt {a b : FV} (h : ¬ FV.lt a b) : pymax a b = a := by
  simp [pymax, h]

theorem pymax_nan_right (a : FV) : pymax a .nan = a :=
  pymax_of_not_lt (FV.not_lt_nan a)

theorem LoopSpec.states_succ {St Out R : Type} (L : LoopSpec St Out R) (s0 : St)
    (k : ℕ) : L.states s0 (k + 1) = L.next (L.outAt s0 k) := rfl

theorem LoopSpec.states_invariant {St Out R : Type} (L : LoopSpec St Out R)
    (s0 : St) (P : St → Prop) (h0 : P s0)
    (hstep : ∀ k s, P s → P (L.next (L.body k s))) : ∀ k, P (L.states s0 k) := by
  intro k
  induction k with
  | zero => exact h0
  | succ k ih => exact hstep k _ ih

theorem LoopSpec.run_states_eq_some_iff {St Out R : Type} (L : LoopSpec St Out R)
    (s0 : St) (r : R)
    (hgb : ∀ i, L.good (L.outAt s0 i) → L.bad (L.outAt s0 i) = false) :
    ∀ fuel i0, (L.run fuel i0 (L.states s0 i0) = some r ↔
      ∃ i, i0 ≤ i ∧ i < i0 + fuel ∧ L.good (L.outAt s0 i) ∧
        (∀ j, i0 ≤ j → j < i → L.bad (L.outAt s0 j) = false ∧ ¬ L.good (L.outAt s0 j)) ∧
        r = L.res (L.outAt s0 i)) := by
  intro fuel
  induction fuel with
  | zero =>
    intro i0
    simp only [LoopSpec.run]
    constructor
    · intro h; exact absurd h (by simp)
    · rintro ⟨i, h1, h2, -, -, -⟩; omega
  | succ fuel ih =>
    intro i0
    have hout : L.body i0 (L.states s0 i0) = L.outAt s0 i0 := rfl
    simp only [LoopSpec.run]
    rw [hout]
    by_cases hb : L.bad (L.outAt s0 i0) = true
    · rw [if_pos hb]
      constructor
      · intro h; exact absurd h (by simp)
      · rintro ⟨i, hi0, hlt, hgi, hall, -⟩
        rcases Nat.lt_or_ge i0 i with hmid | hge
        · have := (hall i0 le_rfl hmid).1
          rw [this] at hb; exact absurd hb (by simp)
        · have hieq : i = i0 := le_antisymm hge hi0
          subst hieq
          rw [hgb _ hgi] at hb; exact absurd hb (by simp)
    · rw [if_neg hb]
      have hbf : L.bad (L.outAt s0 i0) = false := by
        cases hval : L.bad (L.outAt s0 i0)
        · rfl
        · exact absurd hval hb
      by_cases hg : L.good (L.outAt s0 i0)
      · rw [if_pos hg]
        constructor
        · intro h
          injection h with h
          exact ⟨i0, le_rfl, by omega, hg, fun j hj1 hj2 => by omega, h.symm⟩
        · rintro ⟨i, hi0, hlt, hgi, hall, hr⟩
          have hieq : i = i0 := by
            by_contra hne
            have : i0 < i := lt_of_le_of_ne hi0 (Ne.symm hne)
            exact (hall i0 le_rfl this).2 hg
          subst hieq
          rw [hr]
      · rw [if_neg hg]
        have hnext : L.next (L.outAt s0 i0) = L.states s0 (i0 + 1) := rfl
        rw [hnext, ih (i0 + 1)]
        constructor
        · rintro ⟨i, hi0, hlt, hgi, hall, hr⟩
          refine ⟨i, by omega, by omega, hgi, ?_, hr⟩
          intro j hj1 hj2
          rcases Nat.eq_or_lt_of_le hj1 with h | h
          · rw [← h]; exact ⟨hbf, hg⟩
          · exact hall j h hj2
        · rintro ⟨i, hi0, hlt, hgi, hall, hr⟩
          have hne : i ≠ i0 := by rintro rfl; exact hg hgi
          refine ⟨i, by omega, by omega, hgi, ?_, hr⟩
          intro j hj1 hj2
          exact hall j (by omega) hj2

theorem LoopSpec.run_eq_some_iff {St Out R : Type} (L : LoopSpec St Out R)
    (s0 : St) (r : R) (M : ℕ)
    (hgb : ∀ i, L.good (L.outAt s0 i) → L.bad (L.outAt s0 i) = false) :
    L.run (M + 1) 0 s0 = some r ↔
      ∃ i, i ≤ M ∧ L.good (L.outAt s0 i) ∧
        (∀ j, j < i → L.bad (L.outAt s0 j) = false ∧ ¬ L.good (L.outAt s0 j)) ∧
        r = L.res (L.outAt s0 i) := by
  have h0 : s0 = L.states s0 0 := rfl
  rw [h0, L.run_states_eq_some_iff s0 r hgb (M + 1) 0]
  constructor
  · rintro ⟨i, -, hlt, hgi, hall, hr⟩
    exact ⟨i, by omega, hgi, fun j hj => hall j (by omega) hj, hr⟩
  · rintro ⟨i, hle, hgi, hall, hr⟩
    exact ⟨i, by omega, by omega, hgi, fun j _ hj => hall j hj, hr⟩

theorem SR1.body_alpha_one (cfg : SR1Cfg) (i : ℕ) (s : SR1State) :
    (SR1.body cfg i s).state.alpha = (cfg.alpha_updates i).getD s.alpha := rfl

theorem SR1.body_log_rho_new (cfg : SR1Cfg) (i : ℕ) (s : SR1State) (j : ℕ) :
    (SR1.body cfg i s).log_rho_new j =
      if (cfg.muloc j).isFinite then FV.add (cfg.muloc j) (cfg.c1 s.rho j)
      else FV.ninf := rfl

theorem SR1.body_rho_new (cfg : SR1Cfg) (i : ℕ) (s : SR1State) (j : ℕ) :
    (SR1.body cfg i s).rho_new j = FV.exp ((SR1.body cfg i s).log_rho_new j) := rfl

theorem SR1.body_log_rho (cfg : SR1Cfg) (i : ℕ) (s : SR1State) (j : ℕ) :
    (SR1.body cfg i s).state.log_rho j =
      FV.add (FV.mul (FV.fin (1 - (cfg.alpha_updates i).getD s.alpha)) (s.log_rho j))
        (FV.mul (FV.fin ((cfg.alpha_updates i).getD s.alpha))
          ((SR1.body cfg i s).log_rho_new j)) := rfl

theorem SR1.body_rho_mixed (cfg : SR1Cfg) (i : ℕ) (s : SR1State) (j : ℕ) :
    (SR1.body cfg i s).state.rho j = FV.exp ((SR1.body cfg i s).state.log_rho j) := rfl

theorem SR1.body_delta_one (cfg : SR1Cfg) (i : ℕ) (s : SR1State) :
    (SR1.body cfg i s).delta = vmax cfg.n (fun j =>
      FV.abs (FV.sub ((SR1.body cfg i s).rho_new j) ((SR1.body cfg i s).state.rho j))) := rfl

theorem SR1.inv_init_one (cfg : SR1Cfg) (h : SR1.Hyp cfg) : SR1.Inv cfg (SR1.init cfg) := by
  obtain ⟨ha, -, hg, -⟩ := h
  refine ⟨ha, fun j hj => ?_, fun j hj => ?_⟩
  · exact ⟨Real.log cfg.initial_guess, by simp [SR1.init, hj, FV.flog_of_pos hg]⟩
  · simp [SR1.init, hj]

theorem SR1.body_alpha_mem (cfg : SR1Cfg) (h : SR1.Hyp cfg) (i : ℕ) (s : SR1State)
    (hs : 0 < s.alpha ∧ s.alpha < 1) :
    0 < (cfg.alpha_updates i).getD s.alpha ∧ (cfg.alpha_updates i).getD s.alpha < 1 := by
  cases hu : cfg.alpha_updates i with
  | none => simpa using hs
  | some v => simpa using h.2.1 i v hu

theorem SR1.inv_step_one (cfg : SR1Cfg) (h : SR1.Hyp cfg) (i : ℕ) (s : SR1State)
    (hs : SR1.Inv cfg s) : SR1.Inv cfg (SR1.body cfg i s).state := by
  have ha := SR1.body_alpha_mem cfg h i s hs.1
  refine ⟨ha, fun j hj => ?_, fun j hj => ?_⟩
  · obtain ⟨x, hx⟩ := hs.2.1 j hj
    obtain ⟨m, hm⟩ := (FV.isFinite_iff _).mp hj
    obtain ⟨c, hc⟩ := (FV.isFinite_iff _).mp (h.2.2.2 s.rho j)
    refine ⟨(1 - (cfg.alpha_updates i).getD s.alpha) * x +
      (cfg.alpha_updates i).getD s.alpha * (m + c), ?_⟩
    rw [SR1.body_log_rho, SR1.body_log_rho_new, if_pos hj, hx, hm, hc,
      FV.add_fin_fin, FV.mul_fin_fin, FV.mul_fin_fin, FV.add_fin_fin]
  · have hlog := hs.2.2 j hj
    rw [SR1.body_log_rho, SR1.body_log_rho_new, hlog, if_neg (by simp [hj])]
    rw [FV.mul_fin_ninf (by linarith [ha.2]), FV.mul_fin_ninf ha.1]
    exact FV.add_ninf_ninf

theorem SR1.dens_step_one (cfg : SR1Cfg) (h : SR1.Hyp cfg) (i : ℕ) (s : SR1State)
    (hs : SR1.Inv cfg s) :
    ∀ j, densProps ((cfg.muloc j).isFinite) ((SR1.body cfg i s).state.rho j) := by
  intro j
  have hs' := SR1.inv_step_one cfg h i s hs
  cases hval : (cfg.muloc j).isFinite with
  | true =>
    obtain ⟨x, hx⟩ := hs'.2.1 j hval
    rw [SR1.body_rho_mixed, hx, FV.exp_fin]
    exact ⟨⟨Real.exp x, rfl, (Real.exp_pos x).le⟩,
      fun hfalse => by simp at hfalse,
      fun _ => ⟨Real.exp x, rfl, Real.exp_pos x⟩⟩
  | false =>
    have hlog := hs'.2.2 j hval
    rw [SR1.body_rho_mixed, hlog, FV.exp_ninf]
    exact ⟨⟨0, rfl, le_rfl⟩, fun _ => rfl, fun htrue => by simp at htrue⟩

theorem SR1.inv_all_one (cfg : SR1Cfg) (h : SR1.Hyp cfg) :
    ∀ k, SR1.Inv cfg (SR1.statesFrom cfg k) :=
  LoopSpec.states_invariant (SR1.loop cfg) (SR1.init cfg) (SR1.Inv cfg)
    (SR1.inv_init_one cfg h) (fun k s hs => SR1.inv_step_one cfg h k s hs)

theorem SR1.dens_all_one (cfg : SR1Cfg) (h : SR1.Hyp cfg) :
    ∀ k j, densProps ((cfg.muloc j).isFinite) ((SR1.statesFrom cfg (k + 1)).rho j) :=
  fun k => SR1.dens_step_one cfg h k (SR1.statesFrom cfg k) (SR1.inv_all_one cfg h k)

theorem FV.div_nan_left (x : FV) : FV.div .nan x = .nan := by
  cases x <;> rfl

theorem FV.not_nan_lt (b : FV) : ¬ FV.lt .nan b := by
  cases b <;> simp [FV.lt]

theorem SR1.out_rel_one (cfg : SR1Cfg) (i : ℕ) (s : SR1State) :
    (SR1.body cfg i s).relative_error =
      FV.div (SR1.body cfg i s).delta (vmax cfg.n ((SR1.body cfg i s).state.rho)) := rfl

theorem SR1.good_bad_one (cfg : SR1Cfg) :
    ∀ i, (SR1.loop cfg).good ((SR1.loop cfg).outAt (SR1.init cfg) i) →
      (SR1.loop cfg).bad ((SR1.loop cfg).outAt (SR1.init cfg) i) = false := by
  intro i ho
  show (SR1.body cfg i (SR1.statesFrom cfg i)).delta.isNaN = false
  have ho' : FV.lt (SR1.body cfg i (SR1.statesFrom cfg i)).delta (FV.fin cfg.tolerance) ∨
      FV.lt (SR1.body cfg i (SR1.statesFrom cfg i)).relative_error (FV.fin cfg.tolerance) := ho
  cases hd : (SR1.body cfg i (SR1.statesFrom cfg i)).delta with
  | nan =>
    exfalso
    rcases ho' with h | h
    · rw [hd] at h; exact FV.not_nan_lt _ h
    · rw [SR1.out_rel_one, hd, FV.div_nan_left] at h
      exact FV.not_nan_lt _ h
  | pinf => rfl
  | ninf => rfl
  | fin x => rfl

theorem SR1.dens_solve_one (cfg : SR1Cfg) (h : SR1.Hyp cfg) (r : (ℕ → ℝ) × (ℕ → FV))
    (hr : SR1.solve cfg = some r) :
    ∀ j, densProps ((cfg.muloc j).isFinite) (r.2 j) := by
  intro j
  have hc := (LoopSpec.run_eq_some_iff (SR1.loop cfg) (SR1.init cfg) r cfg.maxiter
    (SR1.good_bad_one cfg)).mp hr
  obtain ⟨i, -, -, -, hres⟩ := hc
  rw [hres]
  exact SR1.dens_all_one cfg h i j

theorem alphaUpdate_mem (u : ℕ → Option ℝ)
    (hupd : ∀ i v, u i = some v → 0 < v ∧ v < 1) (a : ℝ)
    (ha : 0 < a ∧ a < 1) (i : ℕ) : 0 < (u i).getD a ∧ (u i).getD a < 1 := by
  cases hu : u i with
  | none => simpa using ha
  | some v => simpa using hupd i v hu

theorem SR2.body_alpha_two (cfg : SR2Cfg) (i : ℕ) (s : SR2State) :
    (SR2.body cfg i s).state.alpha = (cfg.alpha_updates i).getD s.alpha := rfl

theorem SR2.body_log_H_two (cfg : SR2Cfg) (i : ℕ) (s : SR2State) (j : ℕ) :
    (SR2.body cfg i s).state.log_rho_H j =
      FV.add (FV.mul (FV.fin (1 - (cfg.alpha_updates i).getD s.alpha)) (s.log_rho_H j))
        (FV.mul (FV.fin ((cfg.alpha_updates i).getD s.alpha))
          (if (cfg.muloc_H j).isFinite
            then FV.add (cfg.muloc_H j) ((cfg.c1 s.rho_H s.rho_O).1 j)
            else FV.ninf)) := rfl

theorem SR2.body_log_O_two (cfg : SR2Cfg) (i : ℕ) (s : SR2State) (j : ℕ) :
    (SR2.body cfg i s).state.log_rho_O j =
      FV.add (FV.mul (FV.fin (1 - (cfg.alpha_updates i).getD s.alpha)) (s.log_rho_O j))
        (FV.mul (FV.fin ((cfg.alpha_updates i).getD s.alpha))
          (if (cfg.muloc_O j).isFinite
            then FV.add (cfg.muloc_O j) ((cfg.c1 s.rho_H s.rho_O).2 j)
            else FV.ninf)) := rfl

theorem SR2.body_rho_H_two (cfg : SR2Cfg) (i : ℕ) (s : SR2State) (j : ℕ) :
    (SR2.body cfg i s).state.rho_H j = FV.exp ((SR2.body cfg i s).state.log_rho_H j) := rfl

theorem SR2.body_rho_O_two (cfg : SR2Cfg) (i : ℕ) (s : SR2State) (j : ℕ) :
    (SR2.body cfg i s).state.rho_O j = FV.exp ((SR2.body cfg i s).state.log_rho_O j) := rfl

theorem SR2.out_rel_two (cfg : SR2Cfg) (i : ℕ) (s : SR2State) :
    (SR2.body cfg i s).relative_error =
      FV.div (SR2.body cfg i s).delta
        (pymax (vmax cfg.n ((SR2.body cfg i s).state.rho_O))
          (vmax cfg.n ((SR2.body cfg i s).state.rho_H))) := rfl

theorem SR2.inv_init_two (cfg : SR2Cfg) (h : SR2.Hyp cfg) : SR2.Inv cfg (SR2.init cfg) := by
  obtain ⟨ha, -, hg, -⟩ := h
  refine ⟨ha, fun j hj => ?_, fun j hj => ?_, fun j hj => ?_, fun j hj => ?_⟩
  · exact ⟨Real.log cfg.initial_guess, by simp [SR2.init, hj, FV.flog_of_pos hg]⟩
  · simp [SR2.init, hj]
  · exact ⟨Real.log cfg.initial_guess, by simp [SR2.init, hj, FV.flog_of_pos hg]⟩
  · simp [SR2.init, hj]

theorem SR2.inv_step_two (cfg : SR2Cfg) (h : SR2.Hyp cfg) (i : ℕ) (s : SR2State)
    (hs : SR2.Inv cfg s) : SR2.Inv cfg (SR2.body cfg i s).state := by
  have ha := alphaUpdate_mem cfg.alpha_updates h.2.1 s.alpha hs.1 i
  refine ⟨ha, fun j hj => ?_, fun j hj => ?_, fun j hj => ?_, fun j hj => ?_⟩
  · obtain ⟨x, hx⟩ := hs.2.1 j hj
    obtain ⟨m, hm⟩ := (FV.isFinite_iff _).mp hj
    obtain ⟨c, hc⟩ := (FV.isFinite_iff _).mp (h.2.2.2 s.rho_H s.rho_O j).1
    exact ⟨_, by rw [SR2.body_log_H_two, if_pos hj, hx, hm, hc,
      FV.add_fin_fin, FV.mul_fin_fin, FV.mul_fin_fin, FV.add_fin_fin]⟩
  · have hlog := hs.2.2.1 j hj
    rw [SR2.body_log_H_two, hlog, if_neg (by simp [hj])]
    rw [FV.mul_fin_ninf (by linarith [ha.2]), FV.mul_fin_ninf ha.1]
    exact FV.add_ninf_ninf
  · obtain ⟨x, hx⟩ := hs.2.2.2.1 j hj
    obtain ⟨m, hm⟩ := (FV.isFinite_iff _).mp hj
    obtain ⟨c, hc⟩ := (FV.isFinite_iff _).mp (h.2.2.2 s.rho_H s.rho_O j).2
    exact ⟨_, by rw [SR2.body_log_O_two, if_pos hj, hx, hm, hc,
      FV.add_fin_fin, FV.mul_fin_fin, FV.mul_fin_fin, FV.add_fin_fin]⟩
  · have hlog := hs.2.2.2.2 j hj
    rw [SR2.body_log_O_two, hlog, if_neg (by simp [hj])]
    rw [FV.mul_fin_ninf (by linarith [ha.2]), FV.mul_fin_ninf ha.1]
    exact FV.add_ninf_ninf

theorem SR2.dens_step_two (cfg : SR2Cfg) (h : SR2.Hyp cfg) (i : ℕ) (s : SR2State)
    (hs : SR2.Inv cfg s) :
    ∀ j, densProps ((cfg.muloc_H j).isFinite) ((SR2.body cfg i s).state.rho_H j) ∧
      densProps ((cfg.muloc_O j).isFinite) ((SR2.body cfg i s).state.rho_O j) := by
  intro j
  have hs' := SR2.inv_step_two cfg h i s hs
  constructor
  · cases hval : (cfg.muloc_H j).isFinite with
    | true =>
      obtain ⟨x, hx⟩ := hs'.2.1 j hval
      rw [SR2.body_rho_H_two, hx, FV.exp_fin]
      exact ⟨⟨Real.exp x, rfl, (Real.exp_pos x).le⟩,
        fun hfalse => by simp at hfalse,
        fun _ => ⟨Real.exp x, rfl, Real.exp_pos x⟩⟩
    | false =>
      rw [SR2.body_rho_H_two, hs'.2.2.1 j hval, FV.exp_ninf]
      exact ⟨⟨0, rfl, le_rfl⟩, fun _ => rfl, fun htrue => by simp at htrue⟩
  · cases hval : (cfg.muloc_O j).isFinite with
    | true =>
      obtain ⟨x, hx⟩ := hs'.2.2.2.1 j hval
      rw [SR2.body_rho_O_two, hx, FV.exp_fin]
      exact ⟨⟨Real.exp x, rfl, (Real.exp_pos x).le⟩,
        fun hfalse => by simp at hfalse,
        fun _ => ⟨Real.exp x, rfl, Real.exp_pos x⟩⟩
    | false =>
      rw [SR2.body_rho_O_two, hs'.2.2.2.2 j hval, FV.exp_ninf]
      exact ⟨⟨0, rfl, le_rfl⟩, fun _ => rfl, fun htrue => by simp at htrue⟩

theorem SR2.inv_all_two (cfg : SR2Cfg) (h : SR2.Hyp cfg) :
    ∀ k, SR2.Inv cfg (SR2.statesFrom cfg k) :=
  LoopSpec.states_invariant (SR2.loop cfg) (SR2.init cfg) (SR2.Inv cfg)
    (SR2.inv_init_two cfg h) (fun k s hs => SR2.inv_step_two cfg h k s hs)

theorem SR2.dens_all_two (cfg : SR2Cfg) (h : SR2.Hyp cfg) :
    ∀ k j, densProps ((cfg.muloc_H j).isFinite) ((SR2.statesFrom cfg (k + 1)).rho_H j) ∧
      densProps ((cfg.muloc_O j).isFinite) ((SR2.statesFrom cfg (k + 1)).rho_O j) :=
  fun k => SR2.dens_step_two cfg h k (SR2.statesFrom cfg k) (SR2.inv_all_two cfg h k)

theorem SR2.good_bad_two (cfg : SR2Cfg) :
    ∀ i, (SR2.loop cfg).good ((SR2.loop cfg).outAt (SR2.init cfg) i) →
      (SR2.loop cfg).bad ((SR2.loop cfg).outAt (SR2.init cfg) i) = false := by
  intro i ho
  show (SR2.body cfg i (SR2.statesFrom cfg i)).delta.isNaN = false
  have ho' : FV.lt (SR2.body cfg i (SR2.statesFrom cfg i)).delta (FV.fin cfg.tolerance) ∨
      FV.lt (SR2.body cfg i (SR2.statesFrom cfg i)).relative_error (FV.fin cfg.tolerance) := ho
  cases hd : (SR2.body cfg i (SR2.statesFrom cfg i)).delta with
  | nan =>
    exfalso
    rcases ho' with h | h
    · rw [hd] at h; exact FV.not_nan_lt _ h
    · rw [SR2.out_rel_two, hd, FV.div_nan_left] at h
      exact FV.not_nan_lt _ h
  | pinf => rfl
  | ninf => rfl
  | fin x => rfl

theorem SR2.dens_solve_two (cfg : SR2Cfg) (h : SR2.Hyp cfg)
    (r : (ℕ → ℝ) × (ℕ → FV) × (ℕ → FV)) (hr : SR2.solve cfg = some r) :
    ∀ j, densProps ((cfg.muloc_H j).isFinite) (r.2.1 j) ∧
      densProps ((cfg.muloc_O j).isFinite) (r.2.2 j) := by
  intro j
  have hc := (LoopSpec.run_eq_some_iff (SR2.loop cfg) (SR2.init cfg) r cfg.maxiter
    (SR2.good_bad_two cfg)).mp hr
  obtain ⟨i, -, -, -, hres⟩ := hc
  rw [hres]
  exact SR2.dens_all_two cfg h i j

theorem FV.neg_fin (x : ℝ) : FV.neg (.fin x) = .fin (-x) := rfl

theorem FV.exists_fin_add {a b : FV} (ha : ∃ x, a = FV.fin x) (hb : ∃ y, b = FV.fin y) :
    ∃ z, FV.add a b = FV.fin z := by
  obtain ⟨x, rfl⟩ := ha; obtain ⟨y, rfl⟩ := hb; exact ⟨x + y, rfl⟩

theorem FV.exists_fin_mul {a b : FV} (ha : ∃ x, a = FV.fin x) (hb : ∃ y, b = FV.fin y) :
    ∃ z, FV.mul a b = FV.fin z := by
  obtain ⟨x, rfl⟩ := ha; obtain ⟨y, rfl⟩ := hb; exact ⟨x * y, rfl⟩

theorem FV.exists_fin_sub {a b : FV} (ha : ∃ x, a = FV.fin x) (hb : ∃ y, b = FV.fin y) :
    ∃ z, FV.sub a b = FV.fin z := by
  obtain ⟨x, rfl⟩ := ha; obtain ⟨y, rfl⟩ := hb; exact ⟨x - y, FV.sub_fin_fin x y⟩

theorem LR.body_alpha_lr (cfg : LRCfg) (i : ℕ) (s : LRState) :
    (LR.body cfg i s).state.alpha = (cfg.alpha_updates i).getD s.alpha := rfl

theorem LR.body_alpha_restr (cfg : LRCfg) (i : ℕ) (s : LRState) :
    (LR.body cfg i s).state.alpha_restr =
      (cfg.alpha_restr_updates i).getD s.alpha_restr := rfl

theorem LR.body_log_H_lr (cfg : LRCfg) (i : ℕ) (s : LRState) (j : ℕ) :
    (LR.body cfg i s).state.log_rho_H j =
      FV.add (FV.mul (FV.fin (1 - (cfg.alpha_updates i).getD s.alpha)) (s.log_rho_H j))
        (FV.mul (FV.fin ((cfg.alpha_updates i).getD s.alpha))
          (if (cfg.muloc_H j).isFinite
            then FV.add (cfg.muloc_H j)
              (FV.add (FV.sub ((cfg.c1 s.rho_H s.rho_O).1 j) (FV.fin (LR.mu_H cfg)))
                (FV.mul (FV.fin cfg.q_H) (s.delta_phi j)))
            else FV.ninf)) := rfl

theorem LR.body_log_O_lr (cfg : LRCfg) (i : ℕ) (s : LRState) (j : ℕ) :
    (LR.body cfg i s).state.log_rho_O j =
      FV.add (FV.mul (FV.fin (1 - (cfg.alpha_updates i).getD s.alpha)) (s.log_rho_O j))
        (FV.mul (FV.fin ((cfg.alpha_updates i).getD s.alpha))
          (if (cfg.muloc_O j).isFinite
            then FV.add (cfg.muloc_O j)
              (FV.add (FV.sub ((cfg.c1 s.rho_H s.rho_O).2 j) (FV.fin (LR.mu_O cfg)))
                (FV.mul (FV.fin cfg.q_O) (s.delta_phi j)))
            else FV.ninf)) := rfl

theorem LR.body_rho_H_lr (cfg : LRCfg) (i : ℕ) (s : LRState) (j : ℕ) :
    (LR.body cfg i s).state.rho_H j = FV.exp ((LR.body cfg i s).state.log_rho_H j) := rfl

theorem LR.body_rho_O_lr (cfg : LRCfg) (i : ℕ) (s : LRState) (j : ℕ) :
    (LR.body cfg i s).state.rho_O j = FV.exp ((LR.body cfg i s).state.log_rho_O j) := rfl

theorem LR.body_delta_phi_new (cfg : LRCfg) (i : ℕ) (s : LRState) (j : ℕ) :
    (LR.body cfg i s).delta_phi_new j =
      FV.mul (FV.neg (cfg.restructure
          (LR.fedCharge ((LR.body cfg i s).state.rho_H) ((LR.body cfg i s).state.rho_O)
            cfg.q_H cfg.q_O) j))
        (FV.fin cfg.prefactor_restructure) := rfl

open Classical in
theorem LR.body_delta_phi_eq (cfg : LRCfg) (i : ℕ) (s : LRState) :
    (LR.body cfg i s).state.delta_phi =
      if FV.lt (LR.body cfg i s).delta (FV.fin LR.secondary_threshold) ∧
          FV.lt (FV.fin cfg.tolerance_restr) (LR.body cfg i s).delta_restr then
        fun j => FV.add
          (FV.mul (FV.fin (1 - (cfg.alpha_restr_updates i).getD s.alpha_restr))
            (s.delta_phi j))
          (FV.mul (FV.fin ((cfg.alpha_restr_updates i).getD s.alpha_restr))
            ((LR.body cfg i s).delta_phi_new j))
      else (LR.body cfg i s).delta_phi_new := rfl

theorem LR.inv_init_lr (cfg : LRCfg) (h : LR.Hyp cfg) : LR.Inv cfg (LR.init cfg) := by
  obtain ⟨ha, -, hg, -⟩ := h
  refine ⟨ha, fun j hj => ?_, fun j hj => ?_, fun j hj => ?_, fun j hj => ?_,
    fun j => ⟨0, rfl⟩⟩
  · exact ⟨Real.log cfg.initial_guess, by simp [LR.init, hj, FV.flog_of_pos hg]⟩
  · simp [LR.init, hj]
  · exact ⟨Real.log cfg.initial_guess, by simp [LR.init, hj, FV.flog_of_pos hg]⟩
  · simp [LR.init, hj]

theorem LR.inv_step_lr (cfg : LRCfg) (h : LR.Hyp cfg) (i : ℕ) (s : LRState)
    (hs : LR.Inv cfg s) : LR.Inv cfg (LR.body cfg i s).state := by
  have ha := alphaUpdate_mem cfg.alpha_updates h.2.1 s.alpha hs.1 i
  have hdp := hs.2.2.2.2.2
  have hnewfin : ∀ j, ∃ x, (LR.body cfg i s).delta_phi_new j = FV.fin x := by
    intro j
    obtain ⟨c, hc⟩ := (FV.isFinite_iff _).mp (h.2.2.2.2 _ j)
    exact ⟨_, by rw [LR.body_delta_phi_new, hc, FV.neg_fin, FV.mul_fin_fin]⟩
  refine ⟨ha, fun j hj => ?_, fun j hj => ?_, fun j hj => ?_, fun j hj => ?_, fun j => ?_⟩
  · obtain ⟨x, hx⟩ := hs.2.1 j hj
    obtain ⟨m, hm⟩ := (FV.isFinite_iff _).mp hj
    obtain ⟨c, hc⟩ := (FV.isFinite_iff _).mp (h.2.2.2.1 s.rho_H s.rho_O j).1
    rw [LR.body_log_H_lr, if_pos hj]
    exact FV.exists_fin_add (FV.exists_fin_mul ⟨_, rfl⟩ ⟨_, hx⟩)
      (FV.exists_fin_mul ⟨_, rfl⟩ (FV.exists_fin_add ⟨_, hm⟩
        (FV.exists_fin_add (FV.exists_fin_sub ⟨_, hc⟩ ⟨_, rfl⟩)
          (FV.exists_fin_mul ⟨_, rfl⟩ (hdp j)))))
  · rw [LR.body_log_H_lr, hs.2.2.1 j hj, if_neg (by simp [hj])]
    rw [FV.mul_fin_ninf (by linarith [ha.2]), FV.mul_fin_ninf ha.1]
    exact FV.add_ninf_ninf
  · obtain ⟨x, hx⟩ := hs.2.2.2.1 j hj
    obtain ⟨m, hm⟩ := (FV.isFinite_iff _).mp hj
    obtain ⟨c, hc⟩ := (FV.isFinite_iff _).mp (h.2.2.2.1 s.rho_H s.rho_O j).2
    rw [LR.body_log_O_lr, if_pos hj]
    exact FV.exists_fin_add (FV.exists_fin_mul ⟨_, rfl⟩ ⟨_, hx⟩)
      (FV.exists_fin_mul ⟨_, rfl⟩ (FV.exists_fin_add ⟨_, hm⟩
        (FV.exists_fin_add (FV.exists_fin_sub ⟨_, hc⟩ ⟨_, rfl⟩)
          (FV.exists_fin_mul ⟨_, rfl⟩ (hdp j)))))
  · rw [LR.body_log_O_lr, hs.2.2.2.2.1 j hj, if_neg (by simp [hj])]
    rw [FV.mul_fin_ninf (by linarith [ha.2]), FV.mul_fin_ninf ha.1]
    exact FV.add_ninf_ninf
  · rw [LR.body_delta_phi_eq]
    by_cases hcond : FV.lt (LR.body cfg i s).delta (FV.fin LR.secondary_threshold) ∧
        FV.lt (FV.fin cfg.tolerance_restr) (LR.body cfg i s).delta_restr
    · rw [if_pos hcond]
      exact FV.exists_fin_add (FV.exists_fin_mul ⟨_, rfl⟩ (hdp j))
        (FV.exists_fin_mul ⟨_, rfl⟩ (hnewfin j))
    · rw [if_neg hcond]
      exact hnewfin j

theorem LR.dens_step_lr (cfg : LRCfg) (h : LR.Hyp cfg) (i : ℕ) (s : LRState)
    (hs : LR.Inv cfg s) :
    ∀ j, densProps ((cfg.muloc_H j).isFinite) ((LR.body cfg i s).state.rho_H j) ∧
      densProps ((cfg.muloc_O j).isFinite) ((LR.body cfg i s).state.rho_O j) := by
  intro j
  have hs' := LR.inv_step_lr cfg h i s hs
  constructor
  · cases hval : (cfg.muloc_H j).isFinite with
    | true =>
      obtain ⟨x, hx⟩ := hs'.2.1 j hval
      rw [LR.body_rho_H_lr, hx, FV.exp_fin]
      exact ⟨⟨Real.exp x, rfl, (Real.exp_pos x).le⟩,
        fun hfalse => by simp at hfalse,
        fun _ => ⟨Real.exp x, rfl, Real.exp_pos x⟩⟩
    | false =>
      rw [LR.body_rho_H_lr, hs'.2.2.1 j hval, FV.exp_ninf]
      exact ⟨⟨0, rfl, le_rfl⟩, fun _ => rfl, fun htrue => by simp at htrue⟩
  · cases hval : (cfg.muloc_O j).isFinite with
    | true =>
      obtain ⟨x, hx⟩ := hs'.2.2.2.1 j hval
      rw [LR.body_rho_O_lr, hx, FV.exp_fin]
      exact ⟨⟨Real.exp x, rfl, (Real.exp_pos x).le⟩,
        fun hfalse => by simp at hfalse,
        fun _ => ⟨Real.exp x, rfl, Real.exp_pos x⟩⟩
    | false =>
      rw [LR.body_rho_O_lr, hs'.2.2.2.2.1 j hval, FV.exp_ninf]
      exact ⟨⟨0, rfl, le_rfl⟩, fun _ => rfl, fun htrue => by simp at htrue⟩

theorem LR.inv_all_lr (cfg : LRCfg) (h : LR.Hyp cfg) :
    ∀ k, LR.Inv cfg (LR.statesFrom cfg k) :=
  LoopSpec.states_invariant (LR.loop cfg) (LR.init cfg) (LR.Inv cfg)
    (LR.inv_init_lr cfg h) (fun k s hs => LR.inv_step_lr cfg h k s hs)

theorem LR.dens_all_lr (cfg : LRCfg) (h : LR.Hyp cfg) :
    ∀ k j, densProps ((cfg.muloc_H j).isFinite) ((LR.statesFrom cfg (k + 1)).rho_H j) ∧
      densProps ((cfg.muloc_O j).isFinite) ((LR.statesFrom cfg (k + 1)).rho_O j) :=
  fun k => LR.dens_step_lr cfg h k (LR.statesFrom cfg k) (LR.inv_all_lr cfg h k)

theorem LR.good_bad_lr (cfg : LRCfg) :
    ∀ i, (LR.loop cfg).good ((LR.loop cfg).outAt (LR.init cfg) i) →
      (LR.loop cfg).bad ((LR.loop cfg).outAt (LR.init cfg) i) = false :=
  fun _ ho => FV.isNaN_false_of_lt ho.1

theorem LR.dens_solve_lr (cfg : LRCfg) (h : LR.Hyp cfg)
    (r : (ℕ → ℝ) × (ℕ → FV) × (ℕ → FV)) (hr : LR.solve cfg = some r) :
    ∀ j, densProps ((cfg.muloc_H j).isFinite) (r.2.1 j) ∧
      densProps ((cfg.muloc_O j).isFinite) (r.2.2 j) := by
  intro j
  have hc := (LoopSpec.run_eq_some_iff (LR.loop cfg) (LR.init cfg) r cfg.maxiter
    (LR.good_bad_lr cfg)).mp hr
  obtain ⟨i, -, -, -, hres⟩ := hc
  rw [hres]
  exact LR.dens_all_lr cfg h i j

theorem alphaAt_eq_specLookup (u : ℕ → Option ℝ) (a0 : ℝ) :
    ∀ i, alphaAt u a0 i = alphaSpecLookup u a0 i := by
  intro i
  induction i with
  | zero => rfl
  | succ i ih =>
    unfold alphaSpecLookup
    rw [Nat.findGreatest_succ]
    cases hu : u (i + 1) with
    | some v =>
      rw [if_pos (show (some v).isSome = true from rfl), hu]
      simp [alphaAt, hu]
    | none =>
      rw [if_neg (show ¬ (none : Option ℝ).isSome = true by simp)]
      simp only [alphaAt, hu, Option.getD_none]
      exact ih

theorem SR1.states_alpha_one (cfg : SR1Cfg) :
    ∀ k, (SR1.statesFrom cfg (k + 1)).alpha =
      alphaAt cfg.alpha_updates cfg.alpha_initial k := by
  intro k
  induction k with
  | zero => rfl
  | succ k ih =>
    have hstep : (SR1.statesFrom cfg (k + 2)).alpha =
        (cfg.alpha_updates (k + 1)).getD ((SR1.statesFrom cfg (k + 1)).alpha) := rfl
    rw [hstep, ih]
    rfl

theorem SR2.states_alpha_two (cfg : SR2Cfg) :
    ∀ k, (SR2.statesFrom cfg (k + 1)).alpha =
      alphaAt cfg.alpha_updates cfg.alpha_initial k := by
  intro k
  induction k with
  | zero => rfl
  | succ k ih =>
    have hstep : (SR2.statesFrom cfg (k + 2)).alpha =
        (cfg.alpha_updates (k + 1)).getD ((SR2.statesFrom cfg (k + 1)).alpha) := rfl
    rw [hstep, ih]
    rfl

theorem LR.states_alpha_lr (cfg : LRCfg) :
    ∀ k, (LR.statesFrom cfg (k + 1)).alpha =
      alphaAt cfg.alpha_updates cfg.alpha_initial k := by
  intro k
  induction k with
  | zero => rfl
  | succ k ih =>
    have hstep : (LR.statesFrom cfg (k + 2)).alpha =
        (cfg.alpha_updates (k + 1)).getD ((LR.statesFrom cfg (k + 1)).alpha) := rfl
    rw [hstep, ih]
    rfl

theorem LR.states_alpha_restr (cfg : LRCfg) :
    ∀ k, (LR.statesFrom cfg (k + 1)).alpha_restr =
      alphaAt cfg.alpha_restr_updates LR.alpha_restr_initial k := by
  intro k
  induction k with
  | zero => rfl
  | succ k ih =>
    have hstep : (LR.statesFrom cfg (k + 2)).alpha_restr =
        (cfg.alpha_restr_updates (k + 1)).getD ((LR.statesFrom cfg (k + 1)).alpha_restr) := rfl
    rw [hstep, ih]
    rfl

/-- C1: every iteration of the single-species solver computes the target
log-density as local chemical potential plus the evaluator's correlation
profile at valid positions and minus infinity at invalid positions,
exponentiates it to the target density, mixes log-densities as
new_log = (1-alpha)*old_log + alpha*target_log with density = exp(new_log),
and the convergence diagnostic delta is the maximum over grid points of the
absolute difference between the un-mixed target density and the
already-mixed density, not the previous iterate. -/
theorem C1_sr_onetype_delta_targets_mixed (cfg : SR1Cfg) (i : ℕ) (s : SR1State) :
    (∀ j, (cfg.muloc j).isFinite = true →
      (SR1.body cfg i s).log_rho_new j = FV.add (cfg.muloc j) (cfg.c1 s.rho j)) ∧
    (∀ j, (cfg.muloc j).isFinite = false →
      (SR1.body cfg i s).log_rho_new j = FV.ninf) ∧
    (∀ j, (SR1.body cfg i s).rho_new j = FV.exp ((SR1.body cfg i s).log_rho_new j)) ∧
    (∀ j, (SR1.body cfg i s).state.log_rho j =
      FV.add (FV.mul (FV.fin (1 - (cfg.alpha_updates i).getD s.alpha)) (s.log_rho j))
        (FV.mul (FV.fin ((cfg.alpha_updates i).getD s.alpha))
          ((SR1.body cfg i s).log_rho_new j))) ∧
    (∀ j, (SR1.body cfg i s).state.rho j = FV.exp ((SR1.body cfg i s).state.log_rho j)) ∧
    (SR1.body cfg i s).delta = vmax cfg.n (fun j =>
      FV.abs (FV.sub ((SR1.body cfg i s).rho_new j) ((SR1.body cfg i s).state.rho j))) := by
  refine ⟨fun j hj => ?_, fun j hj => ?_, fun j => rfl, fun j => rfl, fun j => rfl, rfl⟩
  · rw [SR1.body_log_rho_new, if_pos hj]
  · rw [SR1.body_log_rho_new, if_neg (by simp [hj])]

/-- C2: on every iteration of the long-range solver, the restructuring
potential update is two-phase: when the joint density delta of that
iteration is below the fixed secondary threshold and delta_restr exceeds
tolerance_restr, the potential becomes the damped mix
(1-alpha_restr)*old + alpha_restr*target; in every other case the new target
potential is adopted directly, exactly and independently of alpha_restr. -/
theorem C2_lr_two_phase_damping (cfg : LRCfg) (i : ℕ) (s : LRState) :
    (FV.lt (LR.body cfg i s).delta (FV.fin LR.secondary_threshold) ∧
        FV.lt (FV.fin cfg.tolerance_restr) (LR.body cfg i s).delta_restr →
      (LR.body cfg i s).state.delta_phi = fun j =>
        FV.add (FV.mul (FV.fin (1 - (cfg.alpha_restr_updates i).getD s.alpha_restr))
            (s.delta_phi j))
          (FV.mul (FV.fin ((cfg.alpha_restr_updates i).getD s.alpha_restr))
            ((LR.body cfg i s).delta_phi_new j))) ∧
    (¬ (FV.lt (LR.body cfg i s).delta (FV.fin LR.secondary_threshold) ∧
        FV.lt (FV.fin cfg.tolerance_restr) (LR.body cfg i s).delta_restr) →
      (LR.body cfg i s).state.delta_phi = (LR.body cfg i s).delta_phi_new) := by
  constructor
  · intro h
    rw [LR.body_delta_phi_eq, if_pos h]
  · intro h
    rw [LR.body_delta_phi_eq, if_neg h]

/-- C3 counterexample: the fixed secondary threshold (1e-2) of the
long-range solver's two-phase damping switch is not smaller than the
solver's default density tolerance (1e-5), refuting the claim that it is
tighter than the main tolerance. -/
theorem C3_counterexample_threshold_not_tighter :
    ¬ (LR.secondary_threshold < LR.tolerance_default) := by
  norm_num [LR.secondary_threshold, LR.tolerance_default]

/-- C3 (amended): the fixed secondary threshold (1e-2) of the two-phase
damping switch is strictly larger, that is looser, than the long-range
solver's default density tolerance (1e-5). -/
theorem C3_secondary_threshold_looser_than_default_tolerance :
    LR.tolerance_default < LR.secondary_threshold := by
  norm_num [LR.secondary_threshold, LR.tolerance_default]

/-- C6: the schedule mechanism that overwrites the coefficient only on an
exact key match agrees at every iteration index with the specified lookup of
the coefficient of the largest threshold key at most the index (the initial
coefficient when no key has been reached), the coefficient stays fixed
between matching keys, and the coefficient threaded by each solver loop is
exactly that mechanism run from its initial coefficient. -/
theorem C6_schedule_exact_match_equals_spec_lookup (u : ℕ → Option ℝ) (a0 : ℝ)
    (i : ℕ) (cfg1 : SR1Cfg) (cfg2 : SR2Cfg) (cfg3 : LRCfg) (k : ℕ) :
    alphaAt u a0 i = alphaSpecLookup u a0 i ∧
    (u (i + 1) = none → alphaAt u a0 (i + 1) = alphaAt u a0 i) ∧
    (SR1.statesFrom cfg1 (k + 1)).alpha = alphaAt cfg1.alpha_updates cfg1.alpha_initial k ∧
    (SR2.statesFrom cfg2 (k + 1)).alpha = alphaAt cfg2.alpha_updates cfg2.alpha_initial k ∧
    (LR.statesFrom cfg3 (k + 1)).alpha = alphaAt cfg3.alpha_updates cfg3.alpha_initial k ∧
    (LR.statesFrom cfg3 (k + 1)).alpha_restr =
      alphaAt cfg3.alpha_restr_updates LR.alpha_restr_initial k :=
  ⟨alphaAt_eq_specLookup u a0 i, fun h => by simp [alphaAt, h],
   SR1.states_alpha_one cfg1 k, SR2.states_alpha_two cfg2 k, LR.states_alpha_lr cfg3 k,
   LR.states_alpha_restr cfg3 k⟩

/-- C9: at every valid grid position, for alpha in (0,1) and positive old
and target densities, the log-domain mixing step of the single-species body
(exponentiating (1-alpha)*log(old) + alpha*log(target)) equals the geometric
interpolation old^(1-alpha) * target^alpha. -/
theorem C9_log_mixing_geometric (cfg : SR1Cfg) (i : ℕ) (s : SR1State) (j : ℕ)
    (oldD targetD : ℝ)
    (h1 : 0 < (cfg.alpha_updates i).getD s.alpha)
    (h2 : (cfg.alpha_updates i).getD s.alpha < 1)
    (h3 : 0 < oldD) (h4 : 0 < targetD)
    (h5 : s.log_rho j = FV.fin (Real.log oldD))
    (h6 : (SR1.body cfg i s).log_rho_new j = FV.fin (Real.log targetD)) :
    (SR1.body cfg i s).state.rho j =
      FV.fin (oldD ^ (1 - (cfg.alpha_updates i).getD s.alpha) *
        targetD ^ ((cfg.alpha_updates i).getD s.alpha)) := by
  rw [SR1.body_rho_mixed, SR1.body_log_rho, h5, h6, FV.mul_fin_fin, FV.mul_fin_fin,
    FV.add_fin_fin, FV.exp_fin]
  congr 1
  rw [Real.exp_add, Real.rpow_def_of_pos h3, Real.rpow_def_of_pos h4,
    mul_comm (Real.log oldD), mul_comm (Real.log targetD)]

/-- C9 witness: the log-mixing identity instantiated at a concrete
configuration, state, position and pair of unit densities. -/
theorem C9_log_mixing_geometric_witness :
    0 < (W1cfg.alpha_updates 0).getD C9state.alpha ∧
    (W1cfg.alpha_updates 0).getD C9state.alpha < 1 ∧
    (0 : ℝ) < 1 ∧
    C9state.log_rho 0 = FV.fin (Real.log 1) ∧
    (SR1.body W1cfg 0 C9state).log_rho_new 0 = FV.fin (Real.log 1) ∧
    (SR1.body W1cfg 0 C9state).state.rho 0 =
      FV.fin ((1 : ℝ) ^ (1 - (W1cfg.alpha_updates 0).getD C9state.alpha) *
        (1 : ℝ) ^ ((W1cfg.alpha_updates 0).getD C9state.alpha)) := by
  have ha : (W1cfg.alpha_updates 0).getD C9state.alpha = 1 / 2 := rfl
  have h1 : 0 < (W1cfg.alpha_updates 0).getD C9state.alpha := by rw [ha]; norm_num
  have h2 : (W1cfg.alpha_updates 0).getD C9state.alpha < 1 := by rw [ha]; norm_num
  have h5 : C9state.log_rho 0 = FV.fin (Real.log 1) := by
    rw [show C9state.log_rho 0 = FV.fin 0 from rfl, Real.log_one]
  have h6 : (SR1.body W1cfg 0 C9state).log_rho_new 0 = FV.fin (Real.log 1) := by
    rw [SR1.body_log_rho_new, if_pos (show (W1cfg.muloc 0).isFinite = true from rfl),
      show W1cfg.muloc 0 = FV.fin 0 from rfl,
      show W1cfg.c1 C9state.rho 0 = FV.fin 0 from rfl, FV.add_fin_fin, Real.log_one]
    norm_num
  exact ⟨h1, h2, one_pos, h5, h6,
    C9_log_mixing_geometric W1cfg 0 C9state 0 1 1 h1 h2 one_pos one_pos h5 h6⟩

/-- C10: the charge density the long-range solver feeds to the spectral
transform is the raw combination rho_O*q_O + rho_H*q_H with no background
subtraction; pointwise it differs from the summed standalone
calculate_charge_density fields by the constant summed background term, and
the two agree at every grid point exactly when the total charge (trapezoidal
integral of each density times its charge, summed) is zero. -/
theorem C10_lr_raw_charge_vs_standalone (n : ℕ) (z rH rO : ℕ → ℝ) (qH qO : ℝ) :
    (∀ j, LR.fedCharge (fun k => FV.fin (rH k)) (fun k => FV.fin (rO k)) qH qO j =
      FV.fin (rO j * qO + rH j * qH)) ∧
    (∀ L j, rO j * qO + rH j * qH -
        (calculate_charge_density n rH qH L z j + calculate_charge_density n rO qO L z j) =
      (np_trapz n rH z * qH + np_trapz n rO z * qO) / L) ∧
    (∀ L, L ≠ 0 → 0 < n →
      ((∀ j, j < n → rO j * qO + rH j * qH =
          calculate_charge_density n rH qH L z j + calculate_charge_density n rO qO L z j) ↔
        np_trapz n rH z * qH + np_trapz n rO z * qO = 0)) := by
  refine ⟨fun j => rfl, fun L j => by simp only [calculate_charge_density]; ring,
    fun L hL hn => ⟨fun hall => ?_, fun hC j hj => ?_⟩⟩
  · have h := hall 0 hn
    simp only [calculate_charge_density] at h
    have hsum : (np_trapz n rH z * qH + np_trapz n rO z * qO) / L = 0 := by
      rw [add_div]
      linarith
    rcases div_eq_zero_iff.mp hsum with hC | hL0
    · exact hC
    · exact absurd hL0 hL
  · simp only [calculate_charge_density]
    have hsum : np_trapz n rH z * qH / L + np_trapz n rO z * qO / L = 0 := by
      rw [← add_div, hC, zero_div]
    linarith

theorem FV.add_nan_right (a : FV) : FV.add a .nan = .nan := by
  cases a <;> rfl

theorem FV.mul_nan_right (a : FV) : FV.mul a .nan = .nan := by
  cases a <;> rfl

theorem LoopSpec.run_one_good {St Out R : Type} (L : LoopSpec St Out R) (i : ℕ)
    (s : St) (fuel : ℕ) (hb : L.bad (L.body i s) = false) (hg : L.good (L.body i s)) :
    L.run (fuel + 1) i s = some (L.res (L.body i s)) := by
  simp only [LoopSpec.run]
  rw [if_neg (by simp [hb]), if_pos hg]

theorem SR2.body_delta_two (cfg : SR2Cfg) (i : ℕ) (s : SR2State) :
    (SR2.body cfg i s).delta =
      pymax
        (vmax cfg.n (fun j => FV.abs (FV.sub ((SR2.body cfg i s).rho_H_new j)
          ((SR2.body cfg i s).state.rho_H j))))
        (vmax cfg.n (fun j => FV.abs (FV.sub ((SR2.body cfg i s).rho_O_new j)
          ((SR2.body cfg i s).state.rho_O j)))) := rfl

/-- C4: the long-range solver terminates with success, returning the grid
and both density fields, exactly when some iteration within the budget has
the joint density delta below tolerance and delta_restr below
tolerance_restr simultaneously, with no earlier NaN abort or earlier
convergence; the joint test is evaluated every iteration and the
relative-error quantity plays no role in the convergence test. -/
theorem C4_lr_success_iff_joint_convergence (cfg : LRCfg)
    (r : (ℕ → ℝ) × (ℕ → FV) × (ℕ → FV)) :
    LR.solve cfg = some r ↔
      ∃ i, i ≤ cfg.maxiter ∧ LR.convergedAt cfg i ∧
        (∀ j, j < i → (LR.outAt cfg j).delta.isNaN = false ∧ ¬ LR.convergedAt cfg j) ∧
        r = (cfg.zbins, (LR.statesFrom cfg (i + 1)).rho_H,
          (LR.statesFrom cfg (i + 1)).rho_O) :=
  LoopSpec.run_eq_some_iff (LR.loop cfg) (LR.init cfg) r cfg.maxiter (LR.good_bad_lr cfg)

/-- C5 counterexample: with the domain-length argument decoupled from the
grid (grid 0,1 but L = 5), the field calculate_charge_density returns does
not integrate to zero under the trapezoidal sum, refuting the claim for
arbitrary nonzero L. -/
theorem C5_counterexample_free_length :
    (5 : ℝ) ≠ 0 ∧
    np_trapz 2 (calculate_charge_density 2 C5rho 1 5 C5z) C5z ≠ 0 := by
  constructor
  · norm_num
  · simp only [np_trapz, calculate_charge_density, C5rho, C5z]
    norm_num [Finset.sum_range_succ]

/-- C5 (amended): for every density field, every charge and every grid whose
domain length, last grid point minus first, is nonzero and is the length
passed to calculate_charge_density, the returned field integrates to exactly
zero under the trapezoidal sum over the grid. -/
theorem C5_charge_density_integrates_to_zero (n : ℕ) (rho : ℕ → ℝ) (q : ℝ)
    (z : ℕ → ℝ) (hL : z (n - 1) - z 0 ≠ 0) :
    np_trapz n (calculate_charge_density n rho q (z (n - 1) - z 0) z) z = 0 := by
  have htel : ∑ k ∈ Finset.range (n - 1), (z (k + 1) - z k) = z (n - 1) - z 0 :=
    Finset.sum_range_sub z (n - 1)
  have h1 : np_trapz n (calculate_charge_density n rho q (z (n - 1) - z 0) z) z =
      np_trapz n rho z * q -
        (∑ k ∈ Finset.range (n - 1), (z (k + 1) - z k)) *
          (np_trapz n rho z * q / (z (n - 1) - z 0)) := by
    unfold calculate_charge_density np_trapz
    rw [Finset.sum_mul, Finset.sum_mul, ← Finset.sum_sub_distrib]
    exact Finset.sum_congr rfl (fun k _ => by ring)
  rw [h1, htel, mul_comm (z (n - 1) - z 0), div_mul_cancel₀ _ hL, sub_self]

/-- C5 witness: the amended integral-zero property instantiated at the
two-point unit grid with unit density and unit charge. -/
theorem C5_charge_density_integrates_to_zero_witness :
    C5z (2 - 1) - C5z 0 ≠ 0 ∧
    np_trapz 2 (calculate_charge_density 2 C5rho 1 (C5z (2 - 1) - C5z 0) C5z) C5z = 0 := by
  have h : C5z (2 - 1) - C5z 0 ≠ 0 := by unfold C5z; norm_num
  exact ⟨h, C5_charge_density_integrates_to_zero 2 C5rho 1 C5z h⟩

/-- C7: under well-posed configurations (coefficients in (0,1), positive
initial guess, finite evaluator and spectral outputs), in every solver
variant and at every iteration, and in any returned density field, each
species' density is finite and non-negative everywhere, exactly zero at
every position where the validity mask is false, and strictly positive at
every valid position. -/
theorem C7_density_invariants (cfg1 : SR1Cfg) (cfg2 : SR2Cfg) (cfg3 : LRCfg)
    (h1 : SR1.Hyp cfg1) (h2 : SR2.Hyp cfg2) (h3 : LR.Hyp cfg3) :
    (∀ k j, densProps ((cfg1.muloc j).isFinite) ((SR1.statesFrom cfg1 (k + 1)).rho j)) ∧
    (∀ r, SR1.solve cfg1 = some r →
      ∀ j, densProps ((cfg1.muloc j).isFinite) (r.2 j)) ∧
    (∀ k j, densProps ((cfg2.muloc_H j).isFinite) ((SR2.statesFrom cfg2 (k + 1)).rho_H j) ∧
      densProps ((cfg2.muloc_O j).isFinite) ((SR2.statesFrom cfg2 (k + 1)).rho_O j)) ∧
    (∀ r, SR2.solve cfg2 = some r →
      ∀ j, densProps ((cfg2.muloc_H j).isFinite) (r.2.1 j) ∧
        densProps ((cfg2.muloc_O j).isFinite) (r.2.2 j)) ∧
    (∀ k j, densProps ((cfg3.muloc_H j).isFinite) ((LR.statesFrom cfg3 (k + 1)).rho_H j) ∧
      densProps ((cfg3.muloc_O j).isFinite) ((LR.statesFrom cfg3 (k + 1)).rho_O j)) ∧
    (∀ r, LR.solve cfg3 = some r →
      ∀ j, densProps ((cfg3.muloc_H j).isFinite) (r.2.1 j) ∧
        densProps ((cfg3.muloc_O j).isFinite) (r.2.2 j)) :=
  ⟨SR1.dens_all_one cfg1 h1, fun r hr => SR1.dens_solve_one cfg1 h1 r hr,
   SR2.dens_all_two cfg2 h2, fun r hr => SR2.dens_solve_two cfg2 h2 r hr,
   LR.dens_all_lr cfg3 h3, fun r hr => LR.dens_solve_lr cfg3 h3 r hr⟩

/-- C7 witness: the density invariants instantiated at concrete well-posed
configurations of all three solvers. -/
theorem C7_density_invariants_witness :
    SR1.Hyp W1cfg ∧ SR2.Hyp W2cfg ∧ LR.Hyp W3cfg ∧
    ((∀ k j, densProps ((W1cfg.muloc j).isFinite) ((SR1.statesFrom W1cfg (k + 1)).rho j)) ∧
    (∀ r, SR1.solve W1cfg = some r →
      ∀ j, densProps ((W1cfg.muloc j).isFinite) (r.2 j)) ∧
    (∀ k j, densProps ((W2cfg.muloc_H j).isFinite) ((SR2.statesFrom W2cfg (k + 1)).rho_H j) ∧
      densProps ((W2cfg.muloc_O j).isFinite) ((SR2.statesFrom W2cfg (k + 1)).rho_O j)) ∧
    (∀ r, SR2.solve W2cfg = some r →
      ∀ j, densProps ((W2cfg.muloc_H j).isFinite) (r.2.1 j) ∧
        densProps ((W2cfg.muloc_O j).isFinite) (r.2.2 j)) ∧
    (∀ k j, densProps ((W3cfg.muloc_H j).isFinite) ((LR.statesFrom W3cfg (k + 1)).rho_H j) ∧
      densProps ((W3cfg.muloc_O j).isFinite) ((LR.statesFrom W3cfg (k + 1)).rho_O j)) ∧
    (∀ r, LR.solve W3cfg = some r →
      ∀ j, densProps ((W3cfg.muloc_H j).isFinite) (r.2.1 j) ∧
        densProps ((W3cfg.muloc_O j).isFinite) (r.2.2 j))) := by
  have hw1 : SR1.Hyp W1cfg :=
    ⟨⟨show (0 : ℝ) < 1 / 2 by norm_num, show (1 : ℝ) / 2 < 1 by norm_num⟩,
     fun i v h => absurd h (by simp [W1cfg]),
     show (0 : ℝ) < 1 by norm_num, fun rho j => rfl⟩
  have hw2 : SR2.Hyp W2cfg :=
    ⟨⟨show (0 : ℝ) < 1 / 2 by norm_num, show (1 : ℝ) / 2 < 1 by norm_num⟩,
     fun i v h => absurd h (by simp [W2cfg]),
     show (0 : ℝ) < 1 by norm_num, fun rH rO j => ⟨rfl, rfl⟩⟩
  have hw3 : LR.Hyp W3cfg :=
    ⟨⟨show (0 : ℝ) < 1 / 2 by norm_num, show (1 : ℝ) / 2 < 1 by norm_num⟩,
     fun i v h => absurd h (by simp [W3cfg]),
     show (0 : ℝ) < 1 by norm_num, fun rH rO j => ⟨rfl, rfl⟩, fun ch j => rfl⟩
  exact ⟨hw1, hw2, hw3, C7_density_invariants W1cfg W2cfg W3cfg hw1 hw2 hw3⟩

/-- C8: at the configuration C8cfg the evaluator returns NaN for the second
species at a valid grid position, yet minimise_SR_twotype converges on that
very iteration and returns the density fields, the second of which is NaN at
that valid position: Python's builtin max(delta_H, delta_O) returns the
finite delta_H when delta_O is NaN, so the NaN guard never fires and the
solver does not return the failure sentinel. -/
theorem C8_twotype_nan_leak_demo :
    (C8cfg.muloc_O 0).isFinite = true ∧
    ∃ rr : (ℕ → ℝ) × (ℕ → FV) × (ℕ → FV),
      SR2.solve C8cfg = some rr ∧ rr.2.2 0 = FV.nan := by
  have hinitH : (SR2.init C8cfg).log_rho_H 0 = FV.fin (Real.log 1) := by
    rw [show (SR2.init C8cfg).log_rho_H 0 = FV.flog 1 from rfl, FV.flog_of_pos one_pos]
  have hlogO : (SR2.body C8cfg 0 (SR2.init C8cfg)).state.log_rho_O 0 = FV.nan := by
    rw [SR2.body_log_O_two, if_pos (show (C8cfg.muloc_O 0).isFinite = true from rfl),
      show (C8cfg.c1 (SR2.init C8cfg).rho_H (SR2.init C8cfg).rho_O).2 0 = FV.nan from rfl,
      FV.add_nan_right, FV.mul_nan_right, FV.add_nan_right]
  have hrhoO : (SR2.body C8cfg 0 (SR2.init C8cfg)).state.rho_O 0 = FV.nan := by
    rw [SR2.body_rho_O_two, hlogO]
    rfl
  have hrhoOnew : (SR2.body C8cfg 0 (SR2.init C8cfg)).rho_O_new 0 = FV.nan := rfl
  have hdO : vmax C8cfg.n (fun j => FV.abs (FV.sub
      ((SR2.body C8cfg 0 (SR2.init C8cfg)).rho_O_new j)
      ((SR2.body C8cfg 0 (SR2.init C8cfg)).state.rho_O j))) = FV.nan := by
    rw [show C8cfg.n = 1 from rfl, vmax_one]
    show FV.max (FV.abs (FV.sub ((SR2.body C8cfg 0 (SR2.init C8cfg)).rho_O_new 0)
      ((SR2.body C8cfg 0 (SR2.init C8cfg)).state.rho_O 0))) FV.ninf = FV.nan
    rw [hrhoOnew, hrhoO]
    rfl
  have hlogH : (SR2.body C8cfg 0 (SR2.init C8cfg)).state.log_rho_H 0 =
      FV.fin ((1 - 1 / 2) * Real.log 1 + 1 / 2 * ((0 : ℝ) + 0)) := by
    rw [SR2.body_log_H_two, if_pos (show (C8cfg.muloc_H 0).isFinite = true from rfl), hinitH,
      show (C8cfg.c1 (SR2.init C8cfg).rho_H (SR2.init C8cfg).rho_O).1 0 = FV.fin 0 from rfl,
      show C8cfg.muloc_H 0 = FV.fin 0 from rfl,
      show (C8cfg.alpha_updates 0).getD (SR2.init C8cfg).alpha = 1 / 2 from rfl,
      FV.add_fin_fin, FV.mul_fin_fin, FV.mul_fin_fin, FV.add_fin_fin]
  have hrhoH : (SR2.body C8cfg 0 (SR2.init C8cfg)).state.rho_H 0 =
      FV.fin (Real.exp ((1 - 1 / 2) * Real.log 1 + 1 / 2 * ((0 : ℝ) + 0))) := by
    rw [SR2.body_rho_H_two, hlogH, FV.exp_fin]
  have hrhoHnew : (SR2.body C8cfg 0 (SR2.init C8cfg)).rho_H_new 0 =
      FV.fin (Real.exp ((0 : ℝ) + 0)) := rfl
  have hdH : vmax C8cfg.n (fun j => FV.abs (FV.sub
      ((SR2.body C8cfg 0 (SR2.init C8cfg)).rho_H_new j)
      ((SR2.body C8cfg 0 (SR2.init C8cfg)).state.rho_H j))) = FV.fin 0 := by
    rw [show C8cfg.n = 1 from rfl, vmax_one]
    show FV.max (FV.abs (FV.sub ((SR2.body C8cfg 0 (SR2.init C8cfg)).rho_H_new 0)
      ((SR2.body C8cfg 0 (SR2.init C8cfg)).state.rho_H 0))) FV.ninf = FV.fin 0
    rw [hrhoHnew, hrhoH, FV.sub_fin_fin, FV.abs_fin, FV.max_fin_ninf]
    congr 1
    norm_num [Real.log_one]
  have hdelta : (SR2.body C8cfg 0 (SR2.init C8cfg)).delta = FV.fin 0 := by
    rw [SR2.body_delta_two, hdH, hdO, pymax_nan_right]
  have hbad : (SR2.loop C8cfg).bad (SR2.body C8cfg 0 (SR2.init C8cfg)) = false := by
    show ((SR2.body C8cfg 0 (SR2.init C8cfg)).delta).isNaN = false
    rw [hdelta]
    rfl
  have hgood : (SR2.loop C8cfg).good (SR2.body C8cfg 0 (SR2.init C8cfg)) := by
    left
    show FV.lt ((SR2.body C8cfg 0 (SR2.init C8cfg)).delta) (FV.fin C8cfg.tolerance)
    rw [hdelta]
    exact show (0 : ℝ) < 1 by norm_num
  refine ⟨rfl, ⟨C8cfg.zbins, (SR2.body C8cfg 0 (SR2.init C8cfg)).state.rho_H,
    (SR2.body C8cfg 0 (SR2.init C8cfg)).state.rho_O⟩, ?_, hrhoO⟩
  exact LoopSpec.run_one_good (SR2.loop C8cfg) 0 (SR2.init C8cfg) 0 hbad hgood
